import Mathlib

/-!
# native-platform: the macOS file-event watcher and the Windows file functions

A shallow embedding of `apple_fsnotifier.cpp` and of the path, stat, directory and console
functions of `win.cpp`, and theorems about them.

* Machine words (`FSEventStreamEventFlags`, `jint`) are `Nat` / `Int`.
* Pointers are `Option` values, `none` standing for `NULL`.
* Calls that leave the translation unit (CoreFoundation, FSEvents, pthread, JNI) are
  recorded, in program order, in a trace of `Action`s; what such a call returns is an
  input of the model.
-/

namespace NativePlatform

/-! ## `generic.h` -/

/-- Macro `#define FILE_EVENT_CREATED 0`. -/
def FILE_EVENT_CREATED : Int := 0

/-- Macro `#define FILE_EVENT_REMOVED 1`. -/
def FILE_EVENT_REMOVED : Int := 1

/-- Macro `#define FILE_EVENT_MODIFIED 2`. -/
def FILE_EVENT_MODIFIED : Int := 2

/-- Macro `#define FILE_EVENT_INVALIDATE 3`. -/
def FILE_EVENT_INVALIDATE : Int := 3

/-- Macro `#define FILE_EVENT_UNKNOWN 4`. -/
def FILE_EVENT_UNKNOWN : Int := 4

/-- Macro `#define IS_SET(flags, flag) (((flags) & (flag)) == (flag))`. -/
def IS_SET (flags flag : Nat) : Bool := (flags &&& flag) == flag

/-! ## The FSEvents flag constants

`apple_fsnotifier.cpp` takes the six `kFSEventStreamEventFlag*` masks from the
CoreServices header, which is not part of the repository.  The classification is
therefore embedded over an arbitrary choice of the six masks; the values of the SDK
header are kept in `coreServices` for concrete evaluation. -/

/-- The six flag masks the classification tests. -/
structure FSEventStreamEventFlagMasks where
  kFSEventStreamEventFlagMustScanSubDirs : Nat
  kFSEventStreamEventFlagItemCreated : Nat
  kFSEventStreamEventFlagItemRemoved : Nat
  kFSEventStreamEventFlagItemInodeMetaMod : Nat
  kFSEventStreamEventFlagItemRenamed : Nat
  kFSEventStreamEventFlagItemModified : Nat

/-- The masks as the macOS SDK (`FSEvents.h`) defines them. -/
def coreServices : FSEventStreamEventFlagMasks where
  kFSEventStreamEventFlagMustScanSubDirs := 0x00000001
  kFSEventStreamEventFlagItemCreated := 0x00000100
  kFSEventStreamEventFlagItemRemoved := 0x00000200
  kFSEventStreamEventFlagItemInodeMetaMod := 0x00000400
  kFSEventStreamEventFlagItemRenamed := 0x00000800
  kFSEventStreamEventFlagItemModified := 0x00001000

/-! ## `callback`: the classification of one event

The `if` / `else if` chain of lines 70-90 of `apple_fsnotifier.cpp`, which computes
`type` from `flags = eventFlags[i]`. -/

/-- The value `callback` assigns to `type` for the flag word `flags`. -/
def classify (K : FSEventStreamEventFlagMasks) (flags : Nat) : Int :=
  if IS_SET flags K.kFSEventStreamEventFlagMustScanSubDirs then
    FILE_EVENT_INVALIDATE
  else if IS_SET flags K.kFSEventStreamEventFlagItemRenamed then
    if IS_SET flags K.kFSEventStreamEventFlagItemCreated then
      FILE_EVENT_REMOVED
    else
      FILE_EVENT_CREATED
  else if IS_SET flags K.kFSEventStreamEventFlagItemModified then
    FILE_EVENT_MODIFIED
  else if IS_SET flags K.kFSEventStreamEventFlagItemRemoved then
    FILE_EVENT_REMOVED
  else if IS_SET flags K.kFSEventStreamEventFlagItemCreated then
    FILE_EVENT_CREATED
  else if IS_SET flags K.kFSEventStreamEventFlagItemInodeMetaMod then
    FILE_EVENT_MODIFIED
  else
    FILE_EVENT_UNKNOWN

/-! ### The decision list of the specification -/

/-- A flag is set in a flag word when every bit of the flag's mask is on in the word. -/
def FlagSet (flags flag : Nat) : Prop :=
  ∀ i : Nat, flag.testBit i = true → flags.testBit i = true

/-- First-match reading of an ordered decision list: the outcome of the first rule whose
guard holds, the default when no guard holds.  An outcome is a predicate on the kind, so
that a rule may itself be decided by a nested list. -/
def FirstMatch : List (Prop × (Int → Prop)) → (Int → Prop) → Int → Prop
  | [], dflt => dflt
  | (g, k) :: rest, dflt => fun r => (g ∧ k r) ∨ (¬ g ∧ FirstMatch rest dflt r)

/-- The ordered decision list of the specification, section 4.1, with the kinds written as
the numbers the claim gives them. -/
def decisionList (K : FSEventStreamEventFlagMasks) (flags : Nat) : Int → Prop :=
  FirstMatch
    [ (FlagSet flags K.kFSEventStreamEventFlagMustScanSubDirs, fun r => r = 3),
      (FlagSet flags K.kFSEventStreamEventFlagItemRenamed,
        FirstMatch [(FlagSet flags K.kFSEventStreamEventFlagItemCreated, fun r => r = 1)]
          (fun r => r = 0)),
      (FlagSet flags K.kFSEventStreamEventFlagItemModified, fun r => r = 2),
      (FlagSet flags K.kFSEventStreamEventFlagItemRemoved, fun r => r = 1),
      (FlagSet flags K.kFSEventStreamEventFlagItemCreated, fun r => r = 0),
      (FlagSet flags K.kFSEventStreamEventFlagItemInodeMetaMod, fun r => r = 2) ]
    (fun r => r = 4)

/-! ## JNI status codes (`jni.h`) -/

/-- Macro `#define JNI_OK 0`. -/
def JNI_OK : Int := 0

/-- Macro `#define JNI_EDETACHED (-2)`. -/
def JNI_EDETACHED : Int := -2

/-- Macro `#define JNI_EVERSION (-3)`. -/
def JNI_EVERSION : Int := -3

/-! ## Process state and the sink -/

/-- One call `pathChanged(type, path)` made on a callback object through JNI. -/
structure PathChanged where
  watcherCallback : Nat
  type : Int
  path : Option (List Char)
deriving DecidableEq, Repr

/-- The globals `jvm` and `invalidStateDetected` of `apple_fsnotifier.cpp`, together with the
`pathChanged` calls made so far, oldest first. -/
structure State where
  jvm : Option Nat
  invalidStateDetected : Bool
  delivered : List PathChanged
deriving DecidableEq, Repr

/-! ## C strings

A `char*` buffer is the list of its characters; the string it holds ends at the first
NUL, or at the end of the list. -/

/-- The loop of lines 33-37: it walks the buffer up to the terminator and overwrites every
newline with NUL. -/
def replaceNewlines : List Char → List Char
  | [] => []
  | c :: rest =>
    if c = '\x00' then c :: rest
    else (if c = '\n' then '\x00' else c) :: replaceNewlines rest

/-- The string a reader of the buffer sees (`strlen`, `NewStringUTF`, `%s`). -/
def cString (buf : List Char) : List Char :=
  buf.takeWhile (fun c => c != '\x00')

/-! ## `reportEvent` -/

/-- Lines 28-53.  `GetEnv` is the status `jvm->GetEnv` returns for the current thread.  A
`NULL` path is passed on as a null string. -/
def reportEvent (GetEnv : Int) (type : Int) (path : Option (List Char)) (watcherCallback : Nat)
    (s : State) : State :=
  let path := path.map replaceNewlines
  if GetEnv ≠ JNI_OK then
    { s with invalidStateDetected := true }
  else
    { s with delivered := s.delivered ++ [⟨watcherCallback, type, path.map cString⟩] }

/-! ## `callback` -/

/-- Lines 55-93.  `GetEnv i` is the status of the environment lookup made while event `i` of
the batch is reported; `eventPaths` and `eventFlags` are the two native arrays. -/
def callback (K : FSEventStreamEventFlagMasks) (GetEnv : Nat → Int) (clientCallBackInfo : Nat)
    (numEvents : Nat) (eventPaths : Nat → Option (List Char)) (eventFlags : Nat → Nat)
    (s : State) : State :=
  if s.invalidStateDetected then s
  else
    (List.range numEvents).foldl
      (fun s i =>
        reportEvent (GetEnv i) (classify K (eventFlags i)) (eventPaths i) clientCallBackInfo s)
      s

/-- One invocation of `callback` by the native stream. -/
structure Batch where
  GetEnv : Nat → Int
  clientCallBackInfo : Nat
  numEvents : Nat
  eventPaths : Nat → Option (List Char)
  eventFlags : Nat → Nat

/-- The stream invoking `callback` once per batch, in order. -/
def runBatches (K : FSEventStreamEventFlagMasks) (batches : List Batch) (s : State) : State :=
  batches.foldl
    (fun s b => callback K b.GetEnv b.clientCallBackInfo b.numEvents b.eventPaths b.eventFlags s)
    s

/-! ## The session record and the trace of external calls -/

/-- A `CFMutableArrayRef` created with `NULL` callbacks: its reference and the values
appended to it, in index order. -/
structure CFMutableArray where
  ref : Nat
  values : List Nat
deriving DecidableEq, Repr

/-- The record `watch_details_t` (lines 20-26); `none` is `NULL`. -/
structure watch_details_t where
  rootsToWatch : Option CFMutableArray
  watcherStream : Option Nat
  watcherThread : Option Nat
  watcherCallback : Option Nat
  threadLoop : Option Nat
deriving DecidableEq, Repr

/-- What a call of `free` is given. -/
inductive Block where
  | details
  | watchedPath (i : Nat)
deriving DecidableEq, Repr

/-- The calls out of `apple_fsnotifier.cpp` that acquire, release or signal something, each
with the arguments and the result that matter. -/
inductive Action where
  | CFArrayCreateMutable (result : Option Nat)
  | malloc
  | free (block : Block)
  | java_to_char (i : Nat) (result : Option (List Char))
  | CFStringCreateWithCString (watchedPath : List Char) (result : Option Nat)
  | CFArrayAppendValue (array : Nat) (value : Nat)
  | NewGlobalRef (obj : Nat) (result : Option Nat)
  | FSEventStreamCreate (pathsToWatch : CFMutableArray) (latencyInMillis : Int)
      (result : Option Nat)
  | pthread_create (status : Int)
  | GetJavaVM (status : Int)
  | NewObject (details : watch_details_t) (result : Option Nat)
  | CFRunLoopStop (threadLoop : Nat)
  | pthread_join (watcherThread : Nat)
  | CFRelease (ref : Nat)
  | FSEventStreamStop (watcherStream : Nat)
  | FSEventStreamInvalidate (watcherStream : Nat)
  | FSEventStreamRelease (watcherStream : Nat)
  | DeleteGlobalRef (watcherCallback : Nat)
  | mark_failed_with_errno (message : String)
deriving DecidableEq, Repr

/-- Modelled from the spec: `mark_failed_with_errno` is declared in `generic.h` ("Marks the
given result as failed, using the given error message and the current value of
errno/GetLastError()") and defined outside the given sources; the call is recorded with its
message. -/
def mark_failed_with_errno (message : String) : List Action :=
  [Action.mark_failed_with_errno message]

/-- The messages with which a trace marks the result as failed, in order. -/
def failures : List Action → List String
  | [] => []
  | Action.mark_failed_with_errno m :: rest => m :: failures rest
  | _ :: rest => failures rest

/-! ## `freeDetails` -/

/-- Lines 125-160: the calls `freeDetails` makes on the record `details`, in program
order. -/
def freeDetails (details : watch_details_t) : List Action :=
  let rootsToWatch := details.rootsToWatch
  let watcherStream := details.watcherStream
  let watcherThread := details.watcherThread
  let watcherCallback := details.watcherCallback
  let threadLoop := details.threadLoop
  [Action.free Block.details]
  ++ (match threadLoop with
      | some l => [Action.CFRunLoopStop l]
      | none => [])
  ++ (match watcherThread with
      | some t => [Action.pthread_join t]
      | none => [])
  ++ (match rootsToWatch with
      | some a => a.values.map Action.CFRelease ++ [Action.CFRelease a.ref]
      | none => [])
  ++ (match watcherStream with
      | some w =>
        [Action.FSEventStreamStop w, Action.FSEventStreamInvalidate w,
          Action.FSEventStreamRelease w]
      | none => [])
  ++ (match watcherCallback with
      | some c => [Action.DeleteGlobalRef c]
      | none => [])

/-! ## `startWatching` -/

/-- What the calls made by one run of `startWatching` return.  `malloc` is the content of
the block `malloc` hands out, which the function does not clear; `java_to_char` (defined
outside the given sources, "Returns NULL on failure") and `CFStringCreateWithCString` are
given the index of the path and the string; `threadLoop` is the run loop the new thread
has stored in the record by the time the starting thread reads it back, if any. -/
structure StartEnv where
  CFArrayCreateMutable : Option Nat
  malloc : watch_details_t
  java_to_char : Nat → List Char → Option (List Char)
  CFStringCreateWithCString : Nat → List Char → Option Nat
  NewGlobalRef : Option Nat
  FSEventStreamCreate : Option Nat
  pthread_create : Int
  watcherThread : Nat
  threadLoop : Option Nat
  GetJavaVM : Int
  jvm : Nat
  NewObject : Option Nat

/-- The outcome of `startWatching`: the returned object (`none` is `NULL`), the calls made,
the globals, and the session record if one is allocated and not freed at return. -/
structure StartResult where
  ret : Option Nat
  trace : List Action
  state : State
  details : Option watch_details_t

/-- The loop of lines 181-198 from index `i` on, over the paths not yet converted, with the
array as filled so far.  It yields the calls made, the array, and whether every path was
converted; a failing iteration marks the result and frees the record before it returns. -/
def watchRoots (E : StartEnv) :
    Nat → List (List Char) → CFMutableArray → List Action × CFMutableArray × Bool
  | _, [], rootsToWatch => ([], rootsToWatch, true)
  | i, path :: rest, rootsToWatch =>
    match E.java_to_char i path with
    | none =>
      ([Action.java_to_char i none]
        ++ mark_failed_with_errno "Could not allocate string to store root to watch."
        ++ freeDetails { E.malloc with rootsToWatch := some rootsToWatch },
        rootsToWatch, false)
    | some watchedPath =>
      match E.CFStringCreateWithCString i watchedPath with
      | none =>
        ([Action.java_to_char i (some watchedPath),
            Action.CFStringCreateWithCString watchedPath none,
            Action.free (Block.watchedPath i)]
          ++ mark_failed_with_errno "Could not create CFStringRef."
          ++ freeDetails { E.malloc with rootsToWatch := some rootsToWatch },
          rootsToWatch, false)
      | some stringPath =>
        let next := watchRoots E (i + 1) rest
          { rootsToWatch with values := rootsToWatch.values ++ [stringPath] }
        ([Action.java_to_char i (some watchedPath),
            Action.CFStringCreateWithCString watchedPath (some stringPath),
            Action.free (Block.watchedPath i),
            Action.CFArrayAppendValue rootsToWatch.ref stringPath] ++ next.1, next.2)

/-- Lines 162-239.  `paths` is the Java array, `javaCallback` the sink object. -/
def startWatching (E : StartEnv) (paths : List (List Char)) (latencyInMillis : Int)
    (javaCallback : Nat) (s : State) : StartResult :=
  let s := { s with invalidStateDetected := false }
  match E.CFArrayCreateMutable with
  | none =>
    ⟨none, [Action.CFArrayCreateMutable none]
      ++ mark_failed_with_errno "Could not allocate array to store roots to watch.", s, none⟩
  | some ref =>
    let t0 := [Action.CFArrayCreateMutable (some ref)]
    let count := paths.length
    if count = 0 then
      ⟨none, t0 ++ mark_failed_with_errno "No paths given to watch.", s, none⟩
    else
      let t1 := t0 ++ [Action.malloc]
      match watchRoots E 0 paths ⟨ref, []⟩ with
      | (tr, _, false) => ⟨none, t1 ++ tr, s, none⟩
      | (tr, rootsToWatch, true) =>
        let t2 := t1 ++ tr ++ [Action.NewGlobalRef javaCallback E.NewGlobalRef]
        let details : watch_details_t :=
          { E.malloc with rootsToWatch := some rootsToWatch, watcherCallback := E.NewGlobalRef }
        match E.NewGlobalRef with
        | none =>
          ⟨none, t2 ++ mark_failed_with_errno "Could not create global reference for callback."
            ++ freeDetails details, s, none⟩
        | some _ =>
          let t3 := t2
            ++ [Action.FSEventStreamCreate rootsToWatch latencyInMillis E.FSEventStreamCreate]
          let details := { details with watcherStream := E.FSEventStreamCreate }
          match E.FSEventStreamCreate with
          | none =>
            ⟨none, t3
              ++ mark_failed_with_errno "Could not create FSEventStreamCreate to track changes."
              ++ freeDetails details, s, none⟩
          | some _ =>
            let t4 := t3 ++ [Action.pthread_create E.pthread_create]
            if E.pthread_create ≠ 0 then
              ⟨none, t4 ++ mark_failed_with_errno "Could not create file watcher thread."
                ++ freeDetails details, s, none⟩
            else
              let details := { details with watcherThread := some E.watcherThread }
              let t5 := t4 ++ [Action.GetJavaVM E.GetJavaVM]
              if E.GetJavaVM < 0 then
                let details :=
                  { details with
                    threadLoop := match E.threadLoop with
                      | some l => some l
                      | none => details.threadLoop }
                ⟨none, t5 ++ mark_failed_with_errno "Could not store jvm instance."
                  ++ freeDetails details, s, none⟩
              else
                ⟨E.NewObject, t5 ++ [Action.NewObject details E.NewObject],
                  { s with jvm := some E.jvm }, some details⟩

/-! ## `stopWatching` -/

/-- Lines 241-251: the calls `stopWatching` makes for the record behind `detailsObj`.  The
globals are not written. -/
def stopWatching (s : State) (details : watch_details_t) : List Action × State :=
  ((if s.invalidStateDetected then
      mark_failed_with_errno "Watcher is in invalid state, reported changes may be incorrect."
    else []) ++ freeDetails details, s)

/-! ## Order of calls in a trace, and sample inputs -/

/-- Some occurrence of `a` in the trace comes before some occurrence of `b`. -/
def Precedes (a b : Action) (t : List Action) : Prop :=
  ∃ j, j < t.length ∧ ∃ i, i < j ∧ t[i]? = some a ∧ t[j]? = some b

instance (a b : Action) (t : List Action) : Decidable (Precedes a b t) := by
  unfold Precedes
  infer_instance

/-- A fully started session: array `10` holding the root string `11`, stream `20`, thread
`30`, callback reference `40`, run loop `50`. -/
def startedSession : watch_details_t :=
  ⟨some ⟨10, [11]⟩, some 20, some 30, some 40, some 50⟩

/-- An environment in which every call of `startWatching` succeeds; the block handed out by
`malloc` holds stale values. -/
def sampleEnv : StartEnv where
  CFArrayCreateMutable := some 10
  malloc := ⟨none, some 99, some 98, none, some 97⟩
  java_to_char := fun _ path => some path
  CFStringCreateWithCString := fun i _ => some (11 + i)
  NewGlobalRef := some 40
  FSEventStreamCreate := some 20
  pthread_create := 0
  watcherThread := 30
  threadLoop := none
  GetJavaVM := 0
  jvm := 5
  NewObject := some 60

/-- Every start-up step that `startWatching` checks succeeds: the root array is allocated,
the path count is not zero, every path converts to a C string and to a `CFString`, the
callback reference, the stream and the thread are created, and `GetJavaVM` does not report
an error. -/
def StartUpSucceeds (E : StartEnv) (paths : List (List Char)) : Prop :=
  E.CFArrayCreateMutable ≠ none ∧ paths.length ≠ 0 ∧
  (∀ i path, paths[i]? = some path →
    ∃ watchedPath, E.java_to_char i path = some watchedPath ∧
      E.CFStringCreateWithCString i watchedPath ≠ none) ∧
  E.NewGlobalRef ≠ none ∧ E.FSEventStreamCreate ≠ none ∧ E.pthread_create = 0 ∧
  0 ≤ E.GetJavaVM

/-! ## `EventProcessingThread` -/

/-- What the calls made by the background thread return, and the batches the started stream
hands to `callback` while `CFRunLoopRun` runs. -/
structure ThreadEnv where
  GetEnv : Int
  AttachCurrentThread : Int
  CFRunLoopGetCurrent : Nat
  batches : List Batch

/-- The calls and the store made by the background thread, each an atomic step;
`dereference_null_jvm` is the call `jvm->GetEnv` of line 100 made while the global `jvm` is
still `NULL`, at which the thread, and the process with it, stops. -/
inductive ThreadAction where
  | dereference_null_jvm
  | AttachCurrentThread (status : Int)
  | FSEventStreamScheduleWithRunLoop (watcherStream : Option Nat) (threadLoop : Nat)
  | FSEventStreamStart (watcherStream : Option Nat)
  | store_threadLoop (threadLoop : Nat)
  | CFRunLoopRun
  | DetachCurrentThread
deriving DecidableEq, Repr

/-- The outcome of the background thread: the globals, the session record, and the steps it
took, in order. -/
structure ThreadResult where
  state : State
  details : watch_details_t
  trace : List ThreadAction

/-- Lines 111-122: the thread once it is registered.  It schedules and starts the stream,
stores the loop in the record, runs the loop, in which the stream calls `callback` for each
batch, and detaches. -/
def runRegistered (K : FSEventStreamEventFlagMasks) (T : ThreadEnv) (s : State)
    (details : watch_details_t) : ThreadResult :=
  let threadLoop := T.CFRunLoopGetCurrent
  { state := runBatches K T.batches s
    details := { details with threadLoop := some threadLoop }
    trace :=
      [ThreadAction.FSEventStreamScheduleWithRunLoop details.watcherStream threadLoop,
        ThreadAction.FSEventStreamStart details.watcherStream,
        ThreadAction.store_threadLoop threadLoop,
        ThreadAction.CFRunLoopRun,
        ThreadAction.DetachCurrentThread] }

/-- Lines 95-123.  The lookup of line 100 goes through the global `jvm`, which
`startWatching` stores only after it has created the thread (lines 222 and 229): while it is
`NULL` the thread stops at the lookup. -/
def EventProcessingThread (K : FSEventStreamEventFlagMasks) (T : ThreadEnv) (s : State)
    (details : watch_details_t) : ThreadResult :=
  match s.jvm with
  | none =>
    { state := s
      details := details
      trace := [ThreadAction.dereference_null_jvm] }
  | some _ =>
    let getEnvStat := T.GetEnv
    if getEnvStat = JNI_EDETACHED then
      if T.AttachCurrentThread ≠ JNI_OK then
        { state := { s with invalidStateDetected := true }
          details := details
          trace := [ThreadAction.AttachCurrentThread T.AttachCurrentThread] }
      else
        let r := runRegistered K T s details
        { r with trace := ThreadAction.AttachCurrentThread T.AttachCurrentThread :: r.trace }
    else if getEnvStat = JNI_EVERSION then
      { state := { s with invalidStateDetected := true }
        details := details
        trace := [] }
    else
      runRegistered K T s details

/-- The session record as another thread reads it once the background thread has taken the
given steps: only the store of the loop writes to it. -/
def recordAfter (steps : List ThreadAction) (details : watch_details_t) : watch_details_t :=
  steps.foldl
    (fun d a =>
      match a with
      | ThreadAction.store_threadLoop l => { d with threadLoop := some l }
      | _ => d)
    details

/-- A background thread for which the environment lookup succeeds; its run loop is `50`. -/
def sampleThread : ThreadEnv where
  GetEnv := JNI_OK
  AttachCurrentThread := JNI_OK
  CFRunLoopGetCurrent := 50
  batches := []

/-! ## Reading acquisitions and releases off a trace -/

/-- The references handed to `CFRelease`, in order. -/
def released : List Action → List Nat
  | [] => []
  | Action.CFRelease r :: rest => r :: released rest
  | _ :: rest => released rest

/-- The strings `CFStringCreateWithCString` has created, in order. -/
def createdStrings : List Action → List Nat
  | [] => []
  | Action.CFStringCreateWithCString _ (some v) :: rest => v :: createdStrings rest
  | _ :: rest => createdStrings rest

/-- The root array `CFArrayCreateMutable` has created, if any. -/
def createdArray : List Action → Option Nat
  | [] => none
  | Action.CFArrayCreateMutable (some r) :: _ => some r
  | _ :: rest => createdArray rest

/-- The callback reference `NewGlobalRef` has created, if any. -/
def createdCallback : List Action → Option Nat
  | [] => none
  | Action.NewGlobalRef _ (some c) :: _ => some c
  | _ :: rest => createdCallback rest

/-- The stream `FSEventStreamCreate` has created, if any. -/
def createdStream : List Action → Option Nat
  | [] => none
  | Action.FSEventStreamCreate _ _ (some w) :: _ => some w
  | _ :: rest => createdStream rest

/-- Whether `pthread_create` has started the background thread. -/
def threadCreated : List Action → Bool
  | [] => false
  | Action.pthread_create st :: rest => decide (st = 0) || threadCreated rest
  | _ :: rest => threadCreated rest

/-- Whether a call belongs to the teardown of a session. -/
def isTeardown : Action → Bool
  | Action.free Block.details => true
  | Action.CFRunLoopStop _ => true
  | Action.pthread_join _ => true
  | Action.CFRelease _ => true
  | Action.FSEventStreamStop _ => true
  | Action.FSEventStreamInvalidate _ => true
  | Action.FSEventStreamRelease _ => true
  | Action.DeleteGlobalRef _ => true
  | _ => false

/-- The session record holding exactly what the calls of the trace have acquired: the array
with the strings created, the stream, the thread, the callback reference, and the run loop
if the thread was started and has stored it. -/
def acquiredRecord (E : StartEnv) (t : List Action) : watch_details_t where
  rootsToWatch := (createdArray t).map (fun r => ⟨r, createdStrings t⟩)
  watcherStream := createdStream t
  watcherThread := if threadCreated t then some E.watcherThread else none
  watcherCallback := createdCallback t
  threadLoop := if threadCreated t then E.threadLoop else none

/-- A stretch of trace in which nothing of a session is torn down and nothing but path
strings is acquired. -/
def OnlyStrings (t : List Action) : Prop :=
  (∀ a ∈ t, isTeardown a = false) ∧ createdArray t = none ∧ createdCallback t = none ∧
    createdStream t = none ∧ threadCreated t = false

/-- An environment whose fresh record reads as all `NULL` and in which the stream cannot be
created. -/
def noStreamEnv : StartEnv :=
  { sampleEnv with malloc := ⟨none, none, none, none, none⟩, FSEventStreamCreate := none }

/-- The calls of a `stopWatching` that reads the session record once the background thread
has taken its first `k` steps. -/
def stopAfterSteps (K : FSEventStreamEventFlagMasks) (T : ThreadEnv) (s : State)
    (details : watch_details_t) (k : Nat) : List Action :=
  (stopWatching s
    (recordAfter ((EventProcessingThread K T s details).trace.take k) details)).1

/-- An environment in which every call of `startWatching` succeeds and the fresh record
reads as all `NULL`. -/
def clearedEnv : StartEnv :=
  { sampleEnv with malloc := ⟨none, none, none, none, none⟩ }

/-- The sample environment with a record whose block holds stale values, in which the
callback reference cannot be created. -/
def staleRecordEnv : StartEnv :=
  { sampleEnv with NewGlobalRef := none }

/-- An environment in which the fresh record reads as all `NULL`, every call up to the
creation of the thread succeeds and `GetJavaVM` reports an error; the thread has not yet
stored its run loop. -/
def noJavaVMEnv : StartEnv :=
  { clearedEnv with GetJavaVM := -1 }

/-! ## `win.cpp`: error codes -/

/-- Macro `#define FAILURE_GENERIC 0` of `generic.h`. -/
def FAILURE_GENERIC : Int := 0

/-- Macro `#define FAILURE_NO_SUCH_FILE 1` of `generic.h`. -/
def FAILURE_NO_SUCH_FILE : Int := 1

/-- Macro `#define FAILURE_NOT_A_DIRECTORY 2` of `generic.h`. -/
def FAILURE_NOT_A_DIRECTORY : Int := 2

/-- Macro `#define FAILURE_PERMISSIONS 3` of `generic.h`. -/
def FAILURE_PERMISSIONS : Int := 3

/-- The Win32 system error codes `map_error_code` compares with.  They come from the
Windows SDK header `winerror.h`, which is not part of the repository, and are taken as
given. -/
structure WinError where
  ERROR_FILE_NOT_FOUND : Int
  ERROR_PATH_NOT_FOUND : Int
  ERROR_DIRECTORY : Int

/-- The codes as `winerror.h` defines them. -/
def winerror : WinError where
  ERROR_FILE_NOT_FOUND := 2
  ERROR_PATH_NOT_FOUND := 3
  ERROR_DIRECTORY := 267

/-- Lines 47-55 of `win.cpp`. -/
def map_error_code (W : WinError) (error_code : Int) : Int :=
  if error_code = W.ERROR_FILE_NOT_FOUND ∨ error_code = W.ERROR_PATH_NOT_FOUND then
    FAILURE_NO_SUCH_FILE
  else if error_code = W.ERROR_DIRECTORY then
    FAILURE_NOT_A_DIRECTORY
  else
    FAILURE_GENERIC

/-! ## `win.cpp`: long paths

A `wchar_t*` buffer is the list of its UTF-16 code units before the terminator written at
its end; the string it holds ends at the first NUL. -/

/-- The unit `path[i]` of a buffer; past the last unit stands the terminator. -/
def wcharAt (path : List Nat) (i : Nat) : Nat := path.getD i 0

/-- The wide string a reader of the buffer sees (`wcslen`, `wcscpy_s`, `wcsncat_s`). -/
def wString (buf : List Nat) : List Nat :=
  buf.takeWhile (fun c => c != 0)

/-- Lines 76-83 of `win.cpp`. -/
def is_path_absolute_local (path : List Nat) (path_len : Int) : Bool :=
  if path_len < 3 then false
  else
    ((('a'.toNat ≤ wcharAt path 0 && wcharAt path 0 ≤ 'z'.toNat)
        || ('A'.toNat ≤ wcharAt path 0 && wcharAt path 0 ≤ 'Z'.toNat))
      && wcharAt path 1 == ':'.toNat
      && wcharAt path 2 == '\\'.toNat)

/-- Lines 88-93 of `win.cpp`. -/
def is_path_absolute_unc (path : List Nat) (path_len : Int) : Bool :=
  if path_len < 3 then false
  else wcharAt path 0 == '\\'.toNat && wcharAt path 1 == '\\'.toNat

/-- Lines 99-106 of `win.cpp`: `wcscpy_s` copies the string of `pfx`, and `wcsncat_s`
appends the string held by the first `path_len` units of `path`. -/
def add_prefix (path : List Nat) (path_len : Int) (pfx : List Nat) : List Nat :=
  wString pfx ++ wString (path.take path_len.toNat)

/-- Lines 124-154 of `win.cpp`, on the UTF-16 units of the Java string. -/
def java_to_wchar_path (string : List Nat) : List Nat :=
  let len : Int := string.length
  let str := string
  if len ≤ 240 then str
  else if is_path_absolute_local str len then
    add_prefix str len (['\\', '\\', '?', '\\'].map Char.toNat)
  else if is_path_absolute_unc str len then
    add_prefix (str.drop 2) (len - 2)
      (['\\', '\\', '?', '\\', 'U', 'N', 'C', '\\'].map Char.toNat)
  else str

/-- The string starts with an ASCII letter followed by a colon and a backslash. -/
def StartsWithDrive (string : List Nat) : Prop :=
  ∃ c rest, string = c :: ':'.toNat :: '\\'.toNat :: rest ∧
    (('a'.toNat ≤ c ∧ c ≤ 'z'.toNat) ∨ ('A'.toNat ≤ c ∧ c ≤ 'Z'.toNat))

/-- The string starts with two backslashes. -/
def StartsWithTwoBackslashes (string : List Nat) : Prop :=
  ∃ rest, string = '\\'.toNat :: '\\'.toNat :: rest

/-- A path of 244 units: `C:\`, a NUL, and 240 times `a`. -/
def pathWithNul : List Nat :=
  ['C'.toNat, ':'.toNat, '\\'.toNat, 0] ++ List.replicate 240 'a'.toNat

/-- The path is of the form `\\server\share`: two backslashes, a server name that is not
empty and holds no backslash, a backslash, and a share name that is not empty. -/
def IsUncForm (path : List Nat) : Prop :=
  ∃ server share,
    path = '\\'.toNat :: '\\'.toNat :: (server ++ '\\'.toNat :: share) ∧
      server ≠ [] ∧ '\\'.toNat ∉ server ∧ share ≠ []

/-! ## `win.cpp`: `get_file_stat` -/

/-- Macro `#define FILE_TYPE_FILE 0` of `generic.h`. -/
def FILE_TYPE_FILE : Int := 0

/-- Macro `#define FILE_TYPE_DIRECTORY 1` of `generic.h`. -/
def FILE_TYPE_DIRECTORY : Int := 1

/-- Macro `#define FILE_TYPE_SYMLINK 2` of `generic.h`. -/
def FILE_TYPE_SYMLINK : Int := 2

/-- Macro `#define FILE_TYPE_OTHER 3` of `generic.h`. -/
def FILE_TYPE_OTHER : Int := 3

/-- Macro `#define FILE_TYPE_MISSING 4` of `generic.h`. -/
def FILE_TYPE_MISSING : Int := 4

/-- The record `file_stat_t` of `generic.h`. -/
structure file_stat_t where
  fileType : Int
  lastModified : Int
  size : Int
deriving DecidableEq, Repr

/-- The Win32 constants the file functions use.  They come from the Windows SDK headers,
which are not part of the repository, and are taken as given. -/
structure WinFile where
  ERROR_SUCCESS : Nat
  ERROR_FILE_NOT_FOUND : Nat
  ERROR_PATH_NOT_FOUND : Nat
  ERROR_NOT_READY : Nat
  ERROR_CALL_NOT_IMPLEMENTED : Nat
  FILE_ATTRIBUTE_DIRECTORY : Nat
  FILE_ATTRIBUTE_REPARSE_POINT : Nat
  IO_REPARSE_TAG_SYMLINK : Nat

/-- The constants as the Windows SDK defines them. -/
def winfile : WinFile where
  ERROR_SUCCESS := 0
  ERROR_FILE_NOT_FOUND := 2
  ERROR_PATH_NOT_FOUND := 3
  ERROR_NOT_READY := 21
  ERROR_CALL_NOT_IMPLEMENTED := 120
  FILE_ATTRIBUTE_DIRECTORY := 0x10
  FILE_ATTRIBUTE_REPARSE_POINT := 0x400
  IO_REPARSE_TAG_SYMLINK := 0xA000000C

/-- The Win32 record `FILETIME`. -/
structure FILETIME where
  dwLowDateTime : Nat
  dwHighDateTime : Nat
deriving DecidableEq, Repr

/-- The fields of `WIN32_FILE_ATTRIBUTE_DATA` that are read. -/
structure WIN32_FILE_ATTRIBUTE_DATA where
  dwFileAttributes : Nat
  ftLastWriteTime : FILETIME
  nFileSizeHigh : Nat
  nFileSizeLow : Nat
deriving DecidableEq, Repr

/-- The fields of `BY_HANDLE_FILE_INFORMATION` that are read. -/
structure BY_HANDLE_FILE_INFORMATION where
  ftLastWriteTime : FILETIME
  nFileSizeHigh : Nat
  nFileSizeLow : Nat
deriving DecidableEq, Repr

/-- The Win32 record `FILE_ATTRIBUTE_TAG_INFO`. -/
structure FILE_ATTRIBUTE_TAG_INFO where
  FileAttributes : Nat
  ReparseTag : Nat
deriving DecidableEq, Repr

/-- A 64-bit pattern read as the signed `jlong`. -/
def jlong (n : Nat) : Int :=
  if n % 2 ^ 64 < 2 ^ 63 then (n % 2 ^ 64 : Nat) else (n % 2 ^ 64 : Nat) - 2 ^ 64

/-- Lines 166-168 of `win.cpp`. -/
def lastModifiedNanos (time : FILETIME) : Int :=
  jlong ((time.dwHighDateTime <<< 32) ||| time.dwLowDateTime)

/-- Lines 159-164 of `win.cpp`. -/
def is_file_symlink (W : WinFile) (dwFileAttributes reparseTagData : Nat) : Bool :=
  ((dwFileAttributes &&& W.FILE_ATTRIBUTE_REPARSE_POINT) == W.FILE_ATTRIBUTE_REPARSE_POINT)
    && (reparseTagData == W.IO_REPARSE_TAG_SYMLINK)

/-- What the Win32 calls made by `get_file_stat` return; `none` is a failed call.
`CreateFileW` is given whether the link itself is to be opened, and `GetLastError` is the
code left by the call that failed. -/
structure StatEnv where
  GetFileAttributesExW : Option WIN32_FILE_ATTRIBUTE_DATA
  CreateFileW : Bool → Option Nat
  GetFileInformationByHandle : Option BY_HANDLE_FILE_INFORMATION
  GetFileInformationByHandleEx : Option FILE_ATTRIBUTE_TAG_INFO
  GetLastError : Nat

/-- The outcome of `get_file_stat`: the returned code, the record behind `pFileStat`, and
the handles closed. -/
structure StatResult where
  ret : Nat
  stat : file_stat_t
  closed : List Nat
deriving DecidableEq, Repr

/-- Lines 181-263 of `win.cpp`, in both builds: `WINDOWS_MIN` says whether the macro of that
name is defined. -/
def get_file_stat (W : WinFile) (WINDOWS_MIN : Bool) (E : StatEnv) (followLink : Bool)
    (pFileStat : file_stat_t) : StatResult :=
  if WINDOWS_MIN then
    match E.GetFileAttributesExW with
    | none =>
      let error := E.GetLastError
      if error = W.ERROR_FILE_NOT_FOUND ∨ error = W.ERROR_PATH_NOT_FOUND
          ∨ error = W.ERROR_NOT_READY then
        ⟨W.ERROR_SUCCESS, ⟨FILE_TYPE_MISSING, 0, 0⟩, []⟩
      else ⟨error, pFileStat, []⟩
    | some attr =>
      if attr.dwFileAttributes &&& W.FILE_ATTRIBUTE_DIRECTORY ≠ 0 then
        ⟨W.ERROR_SUCCESS, ⟨FILE_TYPE_DIRECTORY, lastModifiedNanos attr.ftLastWriteTime, 0⟩, []⟩
      else
        ⟨W.ERROR_SUCCESS,
          ⟨FILE_TYPE_FILE, lastModifiedNanos attr.ftLastWriteTime,
            jlong ((attr.nFileSizeHigh <<< 32) ||| attr.nFileSizeLow)⟩, []⟩
  else
    match E.CreateFileW (!followLink) with
    | none =>
      let error := E.GetLastError
      if error = W.ERROR_FILE_NOT_FOUND ∨ error = W.ERROR_PATH_NOT_FOUND
          ∨ error = W.ERROR_NOT_READY then
        ⟨W.ERROR_SUCCESS, ⟨FILE_TYPE_MISSING, 0, 0⟩, []⟩
      else ⟨error, pFileStat, []⟩
    | some fileHandle =>
      match E.GetFileInformationByHandle with
      | none => ⟨E.GetLastError, pFileStat, [fileHandle]⟩
      | some fileInfo =>
        match E.GetFileInformationByHandleEx with
        | none => ⟨E.GetLastError, pFileStat, [fileHandle]⟩
        | some fileTagInfo =>
          let lastModified := lastModifiedNanos fileInfo.ftLastWriteTime
          if is_file_symlink W fileTagInfo.FileAttributes fileTagInfo.ReparseTag then
            ⟨W.ERROR_SUCCESS, ⟨FILE_TYPE_SYMLINK, lastModified, 0⟩, [fileHandle]⟩
          else if fileTagInfo.FileAttributes &&& W.FILE_ATTRIBUTE_DIRECTORY ≠ 0 then
            ⟨W.ERROR_SUCCESS, ⟨FILE_TYPE_DIRECTORY, lastModified, 0⟩, [fileHandle]⟩
          else
            ⟨W.ERROR_SUCCESS,
              ⟨FILE_TYPE_FILE, lastModified,
                jlong ((fileInfo.nFileSizeHigh <<< 32) ||| fileInfo.nFileSizeLow)⟩,
              [fileHandle]⟩

/-- Whether the path can be opened: `GetFileAttributesExW` succeeds in the `WINDOWS_MIN`
build, `CreateFileW` yields a handle in the other. -/
def opens (WINDOWS_MIN : Bool) (E : StatEnv) (followLink : Bool) : Bool :=
  if WINDOWS_MIN then E.GetFileAttributesExW.isSome else (E.CreateFileW (!followLink)).isSome

/-- Whether the opened path can be queried: always in the `WINDOWS_MIN` build, when both
`GetFileInformationByHandle` calls succeed in the other. -/
def queries (WINDOWS_MIN : Bool) (E : StatEnv) : Bool :=
  WINDOWS_MIN || (E.GetFileInformationByHandle.isSome && E.GetFileInformationByHandleEx.isSome)

/-- A file that opens and is a symbolic link to a directory. -/
def sampleStat : StatEnv where
  GetFileAttributesExW := some ⟨0x410, ⟨1, 0⟩, 0, 7⟩
  CreateFileW := fun _ => some 3
  GetFileInformationByHandle := some ⟨⟨1, 0⟩, 0, 7⟩
  GetFileInformationByHandleEx := some ⟨0x410, 0xA000000C⟩
  GetLastError := 0

/-- A directory that is not a reparse point, with size fields that are not zero. -/
def directoryStat : StatEnv where
  GetFileAttributesExW := some ⟨0x10, ⟨0, 1⟩, 0, 7⟩
  CreateFileW := fun _ => some 3
  GetFileInformationByHandle := some ⟨⟨0, 1⟩, 0, 7⟩
  GetFileInformationByHandleEx := some ⟨0x10, 0⟩
  GetLastError := 0

/-- A plain file of 7 bytes. -/
def plainFileStat : StatEnv where
  GetFileAttributesExW := some ⟨0x20, ⟨0, 1⟩, 0, 7⟩
  CreateFileW := fun _ => some 3
  GetFileInformationByHandle := some ⟨⟨0, 1⟩, 0, 7⟩
  GetFileInformationByHandleEx := some ⟨0x20, 0⟩
  GetLastError := 0

/-! ## `win.cpp`: `fastReaddirNext` -/

/-- The macro `NT_SUCCESS` and the `NTSTATUS` values the directory functions use.  `win.cpp`
takes them from `ntifs_min.h`, which is not among the given sources; they are taken as
given. -/
structure NtStatus where
  NT_SUCCESS : Int → Bool
  STATUS_NO_MORE_FILES : Int
  STATUS_INVALID_PARAMETER : Int
  STATUS_NOT_A_DIRECTORY : Int

/-- The macro and the values as the Windows DDK defines them: a status is a success when, as
a signed 32-bit number, it is not negative; the three values are `0x80000006`, `0xC000000D`
and `0xC0000103`. -/
def ntstatus : NtStatus where
  NT_SUCCESS := fun status => decide (0 ≤ status)
  STATUS_NO_MORE_FILES := 0x80000006 - 2 ^ 32
  STATUS_INVALID_PARAMETER := 0xC000000D - 2 ^ 32
  STATUS_NOT_A_DIRECTORY := 0xC0000103 - 2 ^ 32

/-- A call that marks the result as failed: `mark_failed_with_code` with a Win32 code, or
`mark_failed_with_ntstatus` (lines 37-45 of `win.cpp`) with an `NTSTATUS`. -/
inductive Marking where
  | mark_failed_with_code (message : String) (error_code : Nat)
  | mark_failed_with_ntstatus (message : String) (status : Int)
deriving DecidableEq, Repr

/-- Lines 668-704 of `win.cpp`, in both builds.  `status` is what the directory query
returns, `GetFileAttributesW` the attributes of the path of the handle.  The result is the
returned `jboolean` and the marking made, if any. -/
def fastReaddirNext (W : WinFile) (N : NtStatus) (WINDOWS_MIN : Bool) (status : Int)
    (GetFileAttributesW : Nat) : Bool × Option Marking :=
  if WINDOWS_MIN then
    (false, some (Marking.mark_failed_with_code "Operation not supported"
      W.ERROR_CALL_NOT_IMPLEMENTED))
  else if !N.NT_SUCCESS status then
    if status = N.STATUS_NO_MORE_FILES then (false, none)
    else
      let status :=
        if status = N.STATUS_INVALID_PARAMETER then
          let attributes := GetFileAttributesW
          if attributes &&& W.FILE_ATTRIBUTE_DIRECTORY = 0 then N.STATUS_NOT_A_DIRECTORY
          else status
        else status
      (false, some (Marking.mark_failed_with_ntstatus "Error reading directory entries" status))
  else (true, none)

/-! ## `win.cpp`: `readInput` -/

/-- The console constants `readInput` uses.  They come from the Windows SDK headers, which
are not part of the repository, and are taken as given. -/
structure WinCon where
  KEY_EVENT : Nat
  LEFT_ALT_PRESSED : Nat
  LEFT_CTRL_PRESSED : Nat
  RIGHT_ALT_PRESSED : Nat
  RIGHT_CTRL_PRESSED : Nat
  SHIFT_PRESSED : Nat
  VK_RETURN : Nat
  VK_UP : Nat
  VK_DOWN : Nat
  VK_LEFT : Nat
  VK_RIGHT : Nat
  VK_HOME : Nat
  VK_END : Nat
  VK_BACK : Nat
  VK_DELETE : Nat
  VK_PRIOR : Nat
  VK_NEXT : Nat

/-- The constants as the Windows SDK defines them. -/
def wincon : WinCon where
  KEY_EVENT := 0x0001
  LEFT_ALT_PRESSED := 0x0002
  LEFT_CTRL_PRESSED := 0x0008
  RIGHT_ALT_PRESSED := 0x0001
  RIGHT_CTRL_PRESSED := 0x0004
  SHIFT_PRESSED := 0x0010
  VK_RETURN := 0x0D
  VK_UP := 0x26
  VK_DOWN := 0x28
  VK_LEFT := 0x25
  VK_RIGHT := 0x27
  VK_HOME := 0x24
  VK_END := 0x23
  VK_BACK := 0x08
  VK_DELETE := 0x2E
  VK_PRIOR := 0x21
  VK_NEXT := 0x22

/-- The fields of `KEY_EVENT_RECORD` that are read. -/
structure KEY_EVENT_RECORD where
  bKeyDown : Bool
  wVirtualKeyCode : Nat
  UnicodeChar : Nat
  dwControlKeyState : Nat
deriving DecidableEq, Repr

/-- The fields of `INPUT_RECORD` that are read. -/
structure INPUT_RECORD where
  EventType : Nat
  KeyEvent : KEY_EVENT_RECORD
deriving DecidableEq, Repr

/-- What `readInput` has done when it returns: called `key` on the buffer (`control_key`),
called `character` on it, marked the result as failed, or nothing; `waiting` stands for the
loop still reading when the given events are used up. -/
inductive Reported where
  | control_key (key : Int)
  | character (char_value : Nat)
  | mark_failed_with_errno (message : String)
  | nothing
  | waiting
deriving DecidableEq, Repr

/-- Lines 885-917 of `win.cpp`: the key reported for a virtual key code pressed without
ALT, CTRL or SHIFT, if it is one of the eleven navigation keys. -/
def navigationKey (C : WinCon) (wVirtualKeyCode : Nat) : Option Int :=
  if wVirtualKeyCode = C.VK_RETURN then some 0
  else if wVirtualKeyCode = C.VK_UP then some 1
  else if wVirtualKeyCode = C.VK_DOWN then some 2
  else if wVirtualKeyCode = C.VK_LEFT then some 3
  else if wVirtualKeyCode = C.VK_RIGHT then some 4
  else if wVirtualKeyCode = C.VK_HOME then some 5
  else if wVirtualKeyCode = C.VK_END then some 6
  else if wVirtualKeyCode = C.VK_BACK then some 7
  else if wVirtualKeyCode = C.VK_DELETE then some 8
  else if wVirtualKeyCode = C.VK_PRIOR then some 10
  else if wVirtualKeyCode = C.VK_NEXT then some 11
  else none

/-- The loop of lines 867-934 of `win.cpp` over the results of the successive
`ReadConsoleInputW` calls; `none` is a failed read. -/
def readInputLoop (C : WinCon) : List (Option INPUT_RECORD) → Reported
  | [] => Reported.waiting
  | none :: _ => Reported.mark_failed_with_errno "could not read from console"
  | some event :: rest =>
    if event.EventType ≠ C.KEY_EVENT then readInputLoop C rest
    else
      let keyEvent := event.KeyEvent
      if !keyEvent.bKeyDown then
        if keyEvent.wVirtualKeyCode = 0x43 ∧ keyEvent.UnicodeChar = 3 then Reported.nothing
        else readInputLoop C rest
      else
        let navigation :=
          if keyEvent.dwControlKeyState &&&
              (C.LEFT_ALT_PRESSED ||| C.LEFT_CTRL_PRESSED ||| C.RIGHT_ALT_PRESSED
                ||| C.RIGHT_CTRL_PRESSED ||| C.SHIFT_PRESSED) = 0 then
            navigationKey C keyEvent.wVirtualKeyCode
          else none
        match navigation with
        | some key => Reported.control_key key
        | none =>
          if keyEvent.wVirtualKeyCode = 0x44 ∧ keyEvent.UnicodeChar = 4 then
            Reported.nothing
          else if keyEvent.UnicodeChar = 0 then readInputLoop C rest
          else if keyEvent.UnicodeChar = '\t'.toNat
              ∧ keyEvent.dwControlKeyState &&& C.SHIFT_PRESSED = 0 then
            Reported.control_key 9
          else Reported.character keyEvent.UnicodeChar

/-- Lines 821-829 of `win.cpp`: the new value of the global `console_buffer` and the
marking made, if any. -/
def init_input (console_buffer : Option Nat) (GetStdHandle : Option Nat)
    (GetConsoleMode : Bool) : Option Nat × List String :=
  match console_buffer with
  | none =>
    (GetStdHandle,
      if !GetConsoleMode then ["could not get console buffer mode"] else [])
  | some h => (some h, [])

/-- Lines 862-935 of `win.cpp`: the marking made by `init_input`, if any, and what the loop
reports. -/
def readInput (C : WinCon) (console_buffer : Option Nat) (GetStdHandle : Option Nat)
    (GetConsoleMode : Bool) (events : List (Option INPUT_RECORD)) : List String × Reported :=
  ((init_input console_buffer GetStdHandle GetConsoleMode).2, readInputLoop C events)

/-- A key-down event for the TAB key with the given modifier state. -/
def tabKeyDown (dwControlKeyState : Nat) : INPUT_RECORD :=
  ⟨wincon.KEY_EVENT, ⟨true, 0x09, '\t'.toNat, dwControlKeyState⟩⟩

/-- Every start-up step of `startWatching` up to and including the creation of the thread
succeeds, so that the background thread exists. -/
def ThreadIsCreated (E : StartEnv) (paths : List (List Char)) : Prop :=
  E.CFArrayCreateMutable ≠ none ∧ paths.length ≠ 0 ∧
  (∀ i path, paths[i]? = some path →
    ∃ watchedPath, E.java_to_char i path = some watchedPath ∧
      E.CFStringCreateWithCString i watchedPath ≠ none) ∧
  E.NewGlobalRef ≠ none ∧ E.FSEventStreamCreate ≠ none ∧ E.pthread_create = 0

/-! ## Theorems -/

/-- The macro `IS_SET` tests exactly that every bit of the mask is on in the word. -/
theorem IS_SET_iff_flagSet (flags flag : Nat) : IS_SET flags flag = true ↔ FlagSet flags flag := by
  unfold IS_SET FlagSet
  rw [beq_iff_eq]
  constructor
  · intro h i hi
    have := congrArg (fun n => n.testBit i) h
    simp only [Nat.testBit_and, hi, Bool.and_true] at this
    exact this
  · intro h
    apply Nat.eq_of_testBit_eq
    intro i
    rw [Nat.testBit_and]
    cases hb : flag.testBit i
    · simp
    · simp [h i hb]

/-- Marking is read off a concatenated trace part by part. -/
theorem failures_append (a b : List Action) : failures (a ++ b) = failures a ++ failures b := by
  induction a with
  | nil => rfl
  | cons x xs ih => cases x <;> simp [failures, ih]

/-- Releasing values marks nothing. -/
theorem failures_map_CFRelease (vs : List Nat) : failures (vs.map Action.CFRelease) = [] := by
  induction vs with
  | nil => rfl
  | cons v vs ih => simpa [failures] using ih

/-- The teardown `freeDetails` never marks the result as failed. -/
theorem failures_freeDetails (d : watch_details_t) : failures (freeDetails d) = [] := by
  obtain ⟨r, w, t, c, l⟩ := d
  cases r <;> cases w <;> cases t <;> cases c <;> cases l <;>
    simp [freeDetails, failures, failures_append, failures_map_CFRelease]

/-- After the newline loop, the buffer reads as the original string cut at its first
newline. -/
theorem cString_replaceNewlines (buf : List Char) :
    cString (replaceNewlines buf) = (cString buf).takeWhile (fun c => c != '\n') := by
  induction buf with
  | nil => rfl
  | cons c rest ih =>
    unfold replaceNewlines
    by_cases h0 : c = '\x00'
    · simp [h0, cString]
    · by_cases hn : c = '\n'
      · simp [hn, cString]
      · simp only [h0, hn, if_false]
        simp only [cString] at ih
        simp [cString, h0, hn, ih]

/-- The loop of `callback` over any list of event indices: an event is delivered exactly
when its own lookup returns `JNI_OK`, in index order; the flag is raised by any failing
lookup and never lowered; `jvm` is not written. -/
theorem foldl_reportEvent (K : FSEventStreamEventFlagMasks) (GetEnv : Nat → Int) (cb : Nat)
    (paths : Nat → Option (List Char)) (flags : Nat → Nat) (l : List Nat) (s : State) :
    (l.foldl (fun s i => reportEvent (GetEnv i) (classify K (flags i)) (paths i) cb s)
        s).delivered
      = s.delivered ++ l.filterMap (fun i =>
          if GetEnv i = JNI_OK then
            some ⟨cb, classify K (flags i), (paths i).map (fun p => cString (replaceNewlines p))⟩
          else none)
    ∧ (l.foldl (fun s i => reportEvent (GetEnv i) (classify K (flags i)) (paths i) cb s)
        s).invalidStateDetected
      = (s.invalidStateDetected || l.any (fun i => decide (GetEnv i ≠ JNI_OK)))
    ∧ (l.foldl (fun s i => reportEvent (GetEnv i) (classify K (flags i)) (paths i) cb s)
        s).jvm = s.jvm := by
  induction l generalizing s with
  | nil => simp
  | cons i l ih =>
    simp only [List.foldl_cons]
    obtain ⟨h1, h2, h3⟩ := ih (reportEvent (GetEnv i) (classify K (flags i)) (paths i) cb s)
    rw [h1, h2, h3]
    by_cases hg : GetEnv i = JNI_OK
    · simp [reportEvent, hg, Option.map_map, Function.comp_def]
    · simp [reportEvent, hg]

/-- The conversions asked of the paths from index `i` on, read at the head and the tail. -/
theorem conversions_cons (E : StartEnv) (i : Nat) (p : List Char) (ps : List (List Char)) :
    (∀ j path, (p :: ps)[j]? = some path →
        ∃ w, E.java_to_char (i + j) path = some w ∧
          E.CFStringCreateWithCString (i + j) w ≠ none)
      ↔ (∃ w, E.java_to_char i p = some w ∧ E.CFStringCreateWithCString i w ≠ none) ∧
        (∀ j path, ps[j]? = some path →
          ∃ w, E.java_to_char (i + 1 + j) path = some w ∧
            E.CFStringCreateWithCString (i + 1 + j) w ≠ none) := by
  constructor
  · intro h
    refine ⟨by simpa using h 0 p (by simp), fun j path hj => ?_⟩
    have := h (j + 1) path (by simpa using hj)
    rwa [show i + (j + 1) = i + 1 + j by omega] at this
  · rintro ⟨h0, hs⟩ j path hj
    cases j with
    | zero =>
      simp only [List.getElem?_cons_zero, Option.some.injEq] at hj
      subst hj
      simpa using h0
    | succ j =>
      simp only [List.getElem?_cons_succ] at hj
      have := hs j path hj
      rwa [show i + 1 + j = i + (j + 1) by omega] at this

/-- The loop over the paths reports success exactly when every conversion succeeds. -/
theorem watchRoots_ok (E : StartEnv) (paths : List (List Char)) :
    ∀ (i : Nat) (arr : CFMutableArray),
      (watchRoots E i paths arr).2.2 = true ↔
        ∀ j path, paths[j]? = some path →
          ∃ w, E.java_to_char (i + j) path = some w ∧
            E.CFStringCreateWithCString (i + j) w ≠ none := by
  induction paths with
  | nil => intro i arr; simp [watchRoots]
  | cons p ps ih =>
    intro i arr
    rw [conversions_cons]
    unfold watchRoots
    cases h1 : E.java_to_char i p with
    | none => simp
    | some w =>
      cases h2 : E.CFStringCreateWithCString i w with
      | none => simp [h2]
      | some sp => simp [h2, ih]

/-- The loop over the paths keeps the reference of the array it is given. -/
theorem watchRoots_ref (E : StartEnv) (paths : List (List Char)) :
    ∀ (i : Nat) (arr : CFMutableArray), (watchRoots E i paths arr).2.1.ref = arr.ref := by
  induction paths with
  | nil => intro i arr; simp [watchRoots]
  | cons p ps ih =>
    intro i arr
    unfold watchRoots
    cases h1 : E.java_to_char i p with
    | none => simp
    | some w =>
      dsimp only
      cases h2 : E.CFStringCreateWithCString i w with
      | none => simp
      | some sp => simp [ih]

/-- A stream whose batches arrive with the flag set delivers nothing and changes nothing. -/
theorem runBatches_of_invalid (K : FSEventStreamEventFlagMasks) (bs : List Batch) (s : State)
    (h : s.invalidStateDetected = true) : runBatches K bs s = s := by
  induction bs with
  | nil => rfl
  | cons b bs ih =>
    simp only [runBatches, List.foldl_cons, callback, h, if_true]
    exact ih

/-- Whatever happens in `startWatching`, it leaves the flag clear. -/
theorem startWatching_clears_flag (E : StartEnv) (paths : List (List Char))
    (latencyInMillis : Int) (javaCallback : Nat) (s : State) :
    (startWatching E paths latencyInMillis javaCallback s).state.invalidStateDetected
      = false := by
  unfold startWatching
  cases E.CFArrayCreateMutable with
  | none => rfl
  | some ref =>
    dsimp only
    split
    · rfl
    · rcases watchRoots E 0 paths ⟨ref, []⟩ with ⟨tr, arr, ok⟩
      cases ok with
      | false => rfl
      | true =>
        dsimp only
        cases E.NewGlobalRef with
        | none => rfl
        | some cb =>
          dsimp only
          cases E.FSEventStreamCreate with
          | none => rfl
          | some w =>
            dsimp only
            split
            · rfl
            · split <;> rfl

/-- The released references of a concatenated trace. -/
theorem released_append (a b : List Action) : released (a ++ b) = released a ++ released b := by
  induction a with
  | nil => rfl
  | cons x xs ih => cases x <;> simp [released, ih]

/-- Releasing a list of values releases exactly these values, in order. -/
theorem released_map_CFRelease (vs : List Nat) : released (vs.map Action.CFRelease) = vs := by
  induction vs with
  | nil => rfl
  | cons v vs ih => simp [released, ih]

/-- The number of `CFRelease` calls on a reference is its number of occurrences among the
released references. -/
theorem count_CFRelease (t : List Action) (v : Nat) :
    t.count (Action.CFRelease v) = (released t).count v := by
  induction t with
  | nil => rfl
  | cons x xs ih =>
    cases x <;> simp [released, List.count_cons, ih]

/-- The references `freeDetails` releases: the values of the root array, then the array. -/
theorem released_freeDetails (d : watch_details_t) :
    released (freeDetails d)
      = match d.rootsToWatch with
        | some a => a.values ++ [a.ref]
        | none => [] := by
  obtain ⟨r, w, t, c, l⟩ := d
  cases r <;> cases w <;> cases t <;> cases c <;> cases l <;>
    simp [freeDetails, released, released_append, released_map_CFRelease]

/-- The strings created in a concatenated trace. -/
theorem createdStrings_append (a b : List Action) :
    createdStrings (a ++ b) = createdStrings a ++ createdStrings b := by
  induction a with
  | nil => rfl
  | cons x xs ih =>
    cases x with
    | CFStringCreateWithCString p r => cases r <;> simp [createdStrings, ih]
    | _ => simp [createdStrings, ih]

/-- The array created in a concatenated trace. -/
theorem createdArray_append (a b : List Action) :
    createdArray (a ++ b) = (createdArray a).or (createdArray b) := by
  induction a with
  | nil => simp [createdArray]
  | cons x xs ih =>
    cases x with
    | CFArrayCreateMutable r => cases r <;> simp [createdArray, ih]
    | _ => simp [createdArray, ih]

/-- The callback reference created in a concatenated trace. -/
theorem createdCallback_append (a b : List Action) :
    createdCallback (a ++ b) = (createdCallback a).or (createdCallback b) := by
  induction a with
  | nil => simp [createdCallback]
  | cons x xs ih =>
    cases x with
    | NewGlobalRef o r => cases r <;> simp [createdCallback, ih]
    | _ => simp [createdCallback, ih]

/-- The stream created in a concatenated trace. -/
theorem createdStream_append (a b : List Action) :
    createdStream (a ++ b) = (createdStream a).or (createdStream b) := by
  induction a with
  | nil => simp [createdStream]
  | cons x xs ih =>
    cases x with
    | FSEventStreamCreate p l r => cases r <;> simp [createdStream, ih]
    | _ => simp [createdStream, ih]

/-- Whether the thread is created in a concatenated trace. -/
theorem threadCreated_append (a b : List Action) :
    threadCreated (a ++ b) = (threadCreated a || threadCreated b) := by
  induction a with
  | nil => simp [threadCreated]
  | cons x xs ih => cases x <;> simp [threadCreated, ih, Bool.or_assoc]

/-- Two stretches that only convert paths make one that only converts paths. -/
theorem OnlyStrings.append {a b : List Action} (ha : OnlyStrings a) (hb : OnlyStrings b) :
    OnlyStrings (a ++ b) := by
  obtain ⟨a1, a2, a3, a4, a5⟩ := ha
  obtain ⟨b1, b2, b3, b4, b5⟩ := hb
  refine ⟨fun x hx => ?_, ?_, ?_, ?_, ?_⟩
  · rcases List.mem_append.mp hx with h | h
    · exact a1 x h
    · exact b1 x h
  · rw [createdArray_append, a2, b2]; rfl
  · rw [createdCallback_append, a3, b3]; rfl
  · rw [createdStream_append, a4, b4]; rfl
  · rw [threadCreated_append, a5, b5]; rfl

/-- A stretch without teardown calls releases nothing. -/
theorem released_of_no_teardown (t : List Action) (h : ∀ a ∈ t, isTeardown a = false) :
    released t = [] := by
  induction t with
  | nil => rfl
  | cons x xs ih =>
    have hx := h x (List.mem_cons_self _ _)
    have hxs := ih (fun a ha => h a (List.mem_cons_of_mem _ ha))
    cases x <;> simp_all [released, isTeardown]

/-- The loop over the paths, when it succeeds, has only converted paths, and the array holds
what it held before followed by the strings created, in order. -/
theorem watchRoots_success (E : StartEnv) (paths : List (List Char)) :
    ∀ (i : Nat) (arr : CFMutableArray), (watchRoots E i paths arr).2.2 = true →
      (watchRoots E i paths arr).2.1
          = ⟨arr.ref, arr.values ++ createdStrings (watchRoots E i paths arr).1⟩ ∧
        OnlyStrings (watchRoots E i paths arr).1 := by
  induction paths with
  | nil =>
    intro i arr _
    simp [watchRoots, createdStrings, OnlyStrings, createdArray, createdCallback,
      createdStream, threadCreated]
  | cons p ps ih =>
    intro i arr
    unfold watchRoots
    cases h1 : E.java_to_char i p with
    | none => simp
    | some w =>
      dsimp only
      cases h2 : E.CFStringCreateWithCString i w with
      | none => simp
      | some sp =>
        dsimp only
        intro hok
        obtain ⟨hv, hq⟩ := ih (i + 1) ⟨arr.ref, arr.values ++ [sp]⟩ hok
        refine ⟨?_, ?_⟩
        · rw [hv]
          simp [createdStrings, createdStrings_append]
        · have h4 : OnlyStrings [Action.java_to_char i (some w),
              Action.CFStringCreateWithCString w (some sp), Action.free (Block.watchedPath i),
              Action.CFArrayAppendValue arr.ref sp] := by
            simp [OnlyStrings, isTeardown, createdArray, createdCallback, createdStream,
              threadCreated]
          exact h4.append hq

/-- The loop over the paths, when it fails, has only converted paths up to the failure, then
marks the result and tears down the record, whose array holds what it held before followed
by the strings created up to the failure. -/
theorem watchRoots_failure (E : StartEnv) (paths : List (List Char)) :
    ∀ (i : Nat) (arr : CFMutableArray), (watchRoots E i paths arr).2.2 = false →
      ∃ pre msg,
        (watchRoots E i paths arr).1
          = pre ++ Action.mark_failed_with_errno msg ::
              freeDetails { E.malloc with
                rootsToWatch := some ⟨arr.ref, arr.values ++ createdStrings pre⟩ } ∧
        OnlyStrings pre := by
  induction paths with
  | nil => intro i arr h; simp [watchRoots] at h
  | cons p ps ih =>
    intro i arr
    unfold watchRoots
    cases h1 : E.java_to_char i p with
    | none =>
      dsimp only
      intro _
      refine ⟨[Action.java_to_char i none],
        "Could not allocate string to store root to watch.", ?_, ?_⟩
      · simp only [createdStrings, List.append_nil, mark_failed_with_errno]
        rfl
      · simp [OnlyStrings, isTeardown, createdArray, createdCallback, createdStream,
          threadCreated]
    | some w =>
      dsimp only
      cases h2 : E.CFStringCreateWithCString i w with
      | none =>
        intro _
        refine ⟨[Action.java_to_char i (some w), Action.CFStringCreateWithCString w none,
          Action.free (Block.watchedPath i)], "Could not create CFStringRef.", ?_, ?_⟩
        · simp only [createdStrings, List.append_nil, mark_failed_with_errno]
          rfl
        · simp [OnlyStrings, isTeardown, createdArray, createdCallback, createdStream,
            threadCreated]
      | some sp =>
        dsimp only
        intro hok
        obtain ⟨pre, msg, hv, hq⟩ := ih (i + 1) ⟨arr.ref, arr.values ++ [sp]⟩ hok
        refine ⟨[Action.java_to_char i (some w),
          Action.CFStringCreateWithCString w (some sp), Action.free (Block.watchedPath i),
          Action.CFArrayAppendValue arr.ref sp] ++ pre, msg, ?_, ?_⟩
        · rw [hv]
          simp [createdStrings_append, createdStrings]
        · have h4 : OnlyStrings [Action.java_to_char i (some w),
              Action.CFStringCreateWithCString w (some sp), Action.free (Block.watchedPath i),
              Action.CFArrayAppendValue arr.ref sp] := by
            simp [OnlyStrings, isTeardown, createdArray, createdCallback, createdStream,
              threadCreated]
          exact h4.append hq

/-- Absence of teardown calls, as a computation over the trace. -/
theorem noTeardown_iff (t : List Action) :
    (∀ a ∈ t, isTeardown a = false) ↔ t.all (fun a => !isTeardown a) = true := by
  simp [List.all_eq_true]

/-- After acquisitions that include the root array, a marking and the teardown of the
acquired record release the strings created, in the order of their creation, and then the
array. -/
theorem released_rollback (E : StartEnv) (pre : List Action) (msg : String) (ref : Nat)
    (hpre : ∀ a ∈ pre, isTeardown a = false) (harr : createdArray pre = some ref) :
    released (pre ++ Action.mark_failed_with_errno msg :: freeDetails (acquiredRecord E pre))
      = createdStrings pre ++ [ref] := by
  rw [released_append, released_of_no_teardown pre hpre]
  change released (freeDetails (acquiredRecord E pre)) = _
  rw [released_freeDetails]
  simp [acquiredRecord, harr]

/-- The loop over the paths, when it succeeds, has created one string per path, the `j`-th
from the `j`-th path. -/
theorem watchRoots_created (E : StartEnv) (paths : List (List Char)) :
    ∀ (i : Nat) (arr : CFMutableArray), (watchRoots E i paths arr).2.2 = true →
      (createdStrings (watchRoots E i paths arr).1).length = paths.length ∧
        ∀ j path, paths[j]? = some path →
          ∃ w, E.java_to_char (i + j) path = some w ∧
            E.CFStringCreateWithCString (i + j) w
              = (createdStrings (watchRoots E i paths arr).1)[j]? := by
  induction paths with
  | nil => intro i arr _; simp [watchRoots, createdStrings]
  | cons p ps ih =>
    intro i arr
    unfold watchRoots
    cases h1 : E.java_to_char i p with
    | none => simp
    | some w =>
      dsimp only
      cases h2 : E.CFStringCreateWithCString i w with
      | none => simp
      | some sp =>
        dsimp only
        intro hok
        obtain ⟨hlen, hget⟩ := ih (i + 1) ⟨arr.ref, arr.values ++ [sp]⟩ hok
        have hcs : createdStrings
            ([Action.java_to_char i (some w), Action.CFStringCreateWithCString w (some sp),
              Action.free (Block.watchedPath i), Action.CFArrayAppendValue arr.ref sp]
              ++ (watchRoots E (i + 1) ps ⟨arr.ref, arr.values ++ [sp]⟩).1)
            = sp :: createdStrings (watchRoots E (i + 1) ps ⟨arr.ref, arr.values ++ [sp]⟩).1 := by
          rw [createdStrings_append]
          rfl
        rw [hcs]
        refine ⟨by simp [hlen], fun j path hj => ?_⟩
        cases j with
        | zero =>
          simp only [List.getElem?_cons_zero, Option.some.injEq] at hj
          subst hj
          exact ⟨w, h1, by simp [h2]⟩
        | succ j =>
          simp only [List.getElem?_cons_succ] at hj
          obtain ⟨w', hw1, hw2⟩ := hget j path hj
          refine ⟨w', ?_, ?_⟩
          · rwa [show i + (j + 1) = i + 1 + j by omega]
          · rw [show i + (j + 1) = i + 1 + j by omega, hw2]
            simp

/-- A buffer without NUL holds itself as its string. -/
theorem wString_of_no_nul (buf : List Nat) (h : 0 ∉ buf) : wString buf = buf := by
  unfold wString
  rw [List.takeWhile_eq_self_iff]
  intro c hc
  have : c ≠ 0 := fun h0 => h (h0 ▸ hc)
  simpa using this

/-- On a path of at least three units the test `is_path_absolute_local` holds exactly when
the path starts with a drive letter, a colon and a backslash. -/
theorem is_path_absolute_local_iff (string : List Nat) (h : 3 ≤ string.length) :
    is_path_absolute_local string string.length = true ↔ StartsWithDrive string := by
  rcases string with _ | ⟨a, _ | ⟨b, _ | ⟨c, rest⟩⟩⟩
  · simp at h
  · simp at h
  · simp at h
  · have h3 : ¬ ((↑(a :: b :: c :: rest).length : Int) < 3) := by
      simp only [List.length_cons]; omega
    simp only [is_path_absolute_local, h3, if_false, wcharAt, StartsWithDrive]
    constructor
    · intro hb
      simp only [List.getD_cons_zero, List.getD_cons_succ, Bool.and_eq_true, Bool.or_eq_true,
        decide_eq_true_eq, beq_iff_eq] at hb
      obtain ⟨⟨hl, hb1⟩, hc1⟩ := hb
      exact ⟨a, rest, by rw [hb1, hc1], hl⟩
    · rintro ⟨x, r, heq, hl⟩
      simp only [List.cons.injEq] at heq
      obtain ⟨rfl, rfl, rfl, _⟩ := heq
      simp only [List.getD_cons_zero, List.getD_cons_succ, Bool.and_eq_true, Bool.or_eq_true,
        decide_eq_true_eq, beq_iff_eq]
      exact ⟨⟨hl, trivial⟩, trivial⟩

/-- On a path of at least three units the test `is_path_absolute_unc` holds exactly when the
path starts with two backslashes. -/
theorem is_path_absolute_unc_iff (string : List Nat) (h : 3 ≤ string.length) :
    is_path_absolute_unc string string.length = true ↔ StartsWithTwoBackslashes string := by
  rcases string with _ | ⟨a, _ | ⟨b, _ | ⟨c, rest⟩⟩⟩
  · simp at h
  · simp at h
  · simp at h
  · have h3 : ¬ ((↑(a :: b :: c :: rest).length : Int) < 3) := by
      simp only [List.length_cons]; omega
    simp only [is_path_absolute_unc, h3, if_false, wcharAt, StartsWithTwoBackslashes]
    constructor
    · intro hb
      simp only [List.getD_cons_zero, List.getD_cons_succ, Bool.and_eq_true,
        beq_iff_eq] at hb
      exact ⟨c :: rest, by rw [hb.1, hb.2]⟩
    · rintro ⟨r, heq⟩
      simp only [List.cons.injEq] at heq
      obtain ⟨rfl, rfl, _⟩ := heq
      simp only [List.getD_cons_zero, List.getD_cons_succ, Bool.and_eq_true, beq_iff_eq]
      exact ⟨trivial, trivial⟩

/-- On a buffer without NUL the newline loop overwrites every newline and nothing else. -/
theorem replaceNewlines_of_no_nul (buf : List Char) (h : '\x00' ∉ buf) :
    replaceNewlines buf = buf.map (fun c => if c = '\n' then '\x00' else c) := by
  induction buf with
  | nil => rfl
  | cons c rest ih =>
    have hc : c ≠ '\x00' := fun h0 => h (h0 ▸ List.mem_cons_self _ _)
    have hrest : '\x00' ∉ rest := fun hm => h (List.mem_cons_of_mem _ hm)
    simp [replaceNewlines, hc, ih hrest]

/-- The teardown of a record without thread and without run loop neither signals a loop nor
joins a thread. -/
theorem no_thread_calls_in_freeDetails (d : watch_details_t) (h1 : d.watcherThread = none)
    (h2 : d.threadLoop = none) :
    (∀ t, Action.pthread_join t ∉ freeDetails d) ∧
      (∀ l, Action.CFRunLoopStop l ∉ freeDetails d) := by
  obtain ⟨r, w, t, c, l⟩ := d
  simp only at h1 h2
  subst h1 h2
  cases r <;> cases w <;> cases c <;> simp [freeDetails]

/-- C1: the kind `callback` computes is a function of the flag word alone, and it is the one
and only kind the ordered decision list of the specification yields: must-rescan, then
renamed (Removed with created, else Created), modified, removed, created, inode-meta,
and Unknown when no rule applies. -/
theorem classify_is_decision_list (K : FSEventStreamEventFlagMasks) (flags : Nat) (kind : Int) :
    decisionList K flags kind ↔ kind = classify K flags := by
  simp only [decisionList, FirstMatch, ← IS_SET_iff_flagSet, classify]
  split_ifs <;>
    simp_all [FILE_EVENT_CREATED, FILE_EVENT_REMOVED, FILE_EVENT_MODIFIED, FILE_EVENT_INVALIDATE,
      FILE_EVENT_UNKNOWN]

/-- C2: a flag word in which the must-rescan flag is set is classified as
`FILE_EVENT_INVALIDATE`, whatever else the word holds. -/
theorem must_rescan_is_invalidate (K : FSEventStreamEventFlagMasks) (flags : Nat)
    (h : FlagSet flags K.kFSEventStreamEventFlagMustScanSubDirs) :
    classify K flags = FILE_EVENT_INVALIDATE ∧ FILE_EVENT_INVALIDATE = 3 := by
  rw [← IS_SET_iff_flagSet] at h
  simp [classify, h, FILE_EVENT_INVALIDATE]

/-- Witness of C2: the word with all six recognised flags and an unrecognised bit. -/
theorem must_rescan_is_invalidate_witness :
    FlagSet 0x1F03 coreServices.kFSEventStreamEventFlagMustScanSubDirs ∧
      classify coreServices 0x1F03 = FILE_EVENT_INVALIDATE :=
  ⟨(IS_SET_iff_flagSet _ _).mp (by decide),
    (must_rescan_is_invalidate coreServices 0x1F03 ((IS_SET_iff_flagSet _ _).mp (by decide))).1⟩

/-- C3: without the must-rescan flag, a word with the renamed flag is Removed when the
created flag is set too and Created when it is not, whatever else the word holds; with the
SDK masks, the word of renamed and created is Removed and the word of renamed alone is
Created. -/
theorem renamed_is_removed_or_created (K : FSEventStreamEventFlagMasks) (flags : Nat)
    (hm : ¬ FlagSet flags K.kFSEventStreamEventFlagMustScanSubDirs)
    (hr : FlagSet flags K.kFSEventStreamEventFlagItemRenamed) :
    (FlagSet flags K.kFSEventStreamEventFlagItemCreated →
        classify K flags = FILE_EVENT_REMOVED) ∧
      (¬ FlagSet flags K.kFSEventStreamEventFlagItemCreated →
        classify K flags = FILE_EVENT_CREATED) ∧
      classify coreServices
          (coreServices.kFSEventStreamEventFlagItemRenamed |||
            coreServices.kFSEventStreamEventFlagItemCreated) = FILE_EVENT_REMOVED ∧
      classify coreServices coreServices.kFSEventStreamEventFlagItemRenamed
        = FILE_EVENT_CREATED := by
  simp only [← IS_SET_iff_flagSet] at hm hr ⊢
  refine ⟨fun hc => ?_, fun hc => ?_, by decide, by decide⟩
  · simp [classify, hm, hr, hc]
  · simp [classify, hm, hr, hc]

/-- Witness of C3: renamed, created, modified and removed together, with the SDK masks. -/
theorem renamed_is_removed_or_created_witness :
    (¬ FlagSet 0x1B00 coreServices.kFSEventStreamEventFlagMustScanSubDirs) ∧
      FlagSet 0x1B00 coreServices.kFSEventStreamEventFlagItemRenamed ∧
      classify coreServices 0x1B00 = FILE_EVENT_REMOVED :=
  ⟨fun h => absurd ((IS_SET_iff_flagSet _ _).mpr h) (by decide),
    (IS_SET_iff_flagSet _ _).mp (by decide),
    (renamed_is_removed_or_created coreServices 0x1B00
      (fun h => absurd ((IS_SET_iff_flagSet _ _).mpr h) (by decide))
      ((IS_SET_iff_flagSet _ _).mp (by decide))).1 ((IS_SET_iff_flagSet _ _).mp (by decide))⟩

/-- C4: the kind is `FILE_EVENT_UNKNOWN` exactly when none of the six recognised flags is
set; with the SDK masks the empty word is Unknown; `callback` hands an Unknown event to
`reportEvent` as it does any other, and `reportEvent` delivers it with kind 4 and leaves
the invalid-state flag as it was. -/
theorem unknown_iff_no_recognised_flag (K : FSEventStreamEventFlagMasks) (flags : Nat) :
    (classify K flags = FILE_EVENT_UNKNOWN ↔
        ¬ FlagSet flags K.kFSEventStreamEventFlagMustScanSubDirs ∧
        ¬ FlagSet flags K.kFSEventStreamEventFlagItemRenamed ∧
        ¬ FlagSet flags K.kFSEventStreamEventFlagItemModified ∧
        ¬ FlagSet flags K.kFSEventStreamEventFlagItemRemoved ∧
        ¬ FlagSet flags K.kFSEventStreamEventFlagItemCreated ∧
        ¬ FlagSet flags K.kFSEventStreamEventFlagItemInodeMetaMod) ∧
      classify coreServices 0 = FILE_EVENT_UNKNOWN ∧
      (∀ (GetEnv : Nat → Int) (cb : Nat) (paths : Nat → Option (List Char)) (f : Nat → Nat)
          (s : State), s.invalidStateDetected = false → classify K (f 0) = FILE_EVENT_UNKNOWN →
        callback K GetEnv cb 1 paths f s
          = reportEvent (GetEnv 0) FILE_EVENT_UNKNOWN (paths 0) cb s) ∧
      (∀ (path : Option (List Char)) (cb : Nat) (s : State),
        reportEvent JNI_OK FILE_EVENT_UNKNOWN path cb s
          = { s with delivered := s.delivered ++
                [⟨cb, 4, path.map (fun p => cString (replaceNewlines p))⟩] }) := by
  refine ⟨?_, by decide, ?_, ?_⟩
  · simp only [← IS_SET_iff_flagSet, classify]
    split_ifs <;>
      simp_all [FILE_EVENT_CREATED, FILE_EVENT_REMOVED, FILE_EVENT_MODIFIED,
        FILE_EVENT_INVALIDATE, FILE_EVENT_UNKNOWN]
  · intro GetEnv cb paths f s hs hk
    simp [callback, hs, hk, List.range_succ]
  · intro path cb s
    simp [reportEvent, FILE_EVENT_UNKNOWN, Option.map_map, Function.comp_def]

/-- C5, the claimed order fails: in the teardown of a fully started session the root
string `11` is released before the stream `20` is stopped, and the invalidation of the
stream does not come before that release. -/
theorem freeDetails_releases_roots_before_stream :
    freeDetails startedSession
        = [Action.free Block.details, Action.CFRunLoopStop 50, Action.pthread_join 30,
            Action.CFRelease 11, Action.CFRelease 10, Action.FSEventStreamStop 20,
            Action.FSEventStreamInvalidate 20, Action.FSEventStreamRelease 20,
            Action.DeleteGlobalRef 40] ∧
      Precedes (Action.CFRelease 11) (Action.FSEventStreamStop 20) (freeDetails startedSession) ∧
      ¬ Precedes (Action.FSEventStreamInvalidate 20) (Action.CFRelease 11)
          (freeDetails startedSession) := by
  decide

/-- C5 as amended: for a fully started session `freeDetails` frees the record, signals the
run loop, joins the thread, releases every root string in index order and then the array,
then stops, invalidates and releases the stream, and last deletes the callback reference;
every root string is released before the stream is stopped. -/
theorem freeDetails_order (a : Nat) (vs : List Nat) (w t c l : Nat) :
    freeDetails ⟨some ⟨a, vs⟩, some w, some t, some c, some l⟩
        = [Action.free Block.details, Action.CFRunLoopStop l, Action.pthread_join t]
          ++ vs.map Action.CFRelease
          ++ [Action.CFRelease a, Action.FSEventStreamStop w, Action.FSEventStreamInvalidate w,
              Action.FSEventStreamRelease w, Action.DeleteGlobalRef c] ∧
      ∀ v ∈ vs, Precedes (Action.CFRelease v) (Action.FSEventStreamStop w)
        (freeDetails ⟨some ⟨a, vs⟩, some w, some t, some c, some l⟩) := by
  have h : freeDetails ⟨some ⟨a, vs⟩, some w, some t, some c, some l⟩
        = [Action.free Block.details, Action.CFRunLoopStop l, Action.pthread_join t]
          ++ vs.map Action.CFRelease
          ++ [Action.CFRelease a, Action.FSEventStreamStop w, Action.FSEventStreamInvalidate w,
              Action.FSEventStreamRelease w, Action.DeleteGlobalRef c] := by
    simp [freeDetails]
  refine ⟨h, fun v hv => ?_⟩
  obtain ⟨n, hn, hnv⟩ := List.getElem_of_mem hv
  have hlen : ([Action.free Block.details, Action.CFRunLoopStop l, Action.pthread_join t]
      ++ vs.map Action.CFRelease).length = 3 + vs.length := by
    simp only [List.length_append, List.length_map, List.length_cons, List.length_nil]
  rw [h]
  refine ⟨3 + vs.length + 1, ?_, 3 + n, by omega, ?_, ?_⟩
  · simp only [List.length_append, List.length_map, List.length_cons, List.length_nil]
    omega
  · rw [List.getElem?_append_left (by rw [hlen]; omega),
      List.getElem?_append_right (by simp)]
    simp [hn, hnv]
  · rw [List.getElem?_append_right (by rw [hlen]; omega), hlen, Nat.add_sub_cancel_left]
    rfl

/-- C6, the claimed message fails: with no paths and a root array that cannot be allocated,
the result is marked with the allocation message, not with "No paths given to watch.". -/
theorem startWatching_no_paths_allocation_message :
    failures (startWatching { sampleEnv with CFArrayCreateMutable := none } [] 0 7
        ⟨none, false, []⟩).trace
      = ["Could not allocate array to store roots to watch."] ∧
    "No paths given to watch." ∉
      failures (startWatching { sampleEnv with CFArrayCreateMutable := none } [] 0 7
        ⟨none, false, []⟩).trace := by
  decide

/-- C6 as amended: with an empty path array `startWatching` marks the result as failed
once, with "No paths given to watch." when the root array was allocated and with the
allocation message when it was not; it returns null, leaves no session record, and calls
neither `malloc` nor `FSEventStreamCreate` nor `pthread_create`. -/
theorem startWatching_no_paths (E : StartEnv) (latencyInMillis : Int) (javaCallback : Nat)
    (s : State) :
    failures (startWatching E [] latencyInMillis javaCallback s).trace
        = [if E.CFArrayCreateMutable.isSome then "No paths given to watch."
            else "Could not allocate array to store roots to watch."] ∧
      (startWatching E [] latencyInMillis javaCallback s).ret = none ∧
      (startWatching E [] latencyInMillis javaCallback s).details = none ∧
      Action.malloc ∉ (startWatching E [] latencyInMillis javaCallback s).trace ∧
      (∀ a l r, Action.FSEventStreamCreate a l r ∉
        (startWatching E [] latencyInMillis javaCallback s).trace) ∧
      (∀ st, Action.pthread_create st ∉
        (startWatching E [] latencyInMillis javaCallback s).trace) := by
  unfold startWatching
  cases hA : E.CFArrayCreateMutable with
  | none => simp [failures, mark_failed_with_errno]
  | some ref => simp [failures, mark_failed_with_errno]

/-- C8, the claimed payload fails: one Created event for the path `a`, newline, `b`, delivered with
the flag clear and a successful lookup, reaches the sink with the path `a`. -/
theorem callback_cuts_path_at_newline :
    (callback coreServices (fun _ => JNI_OK) 40 1 (fun _ => some ['a', '\n', 'b'])
        (fun _ => 0x100) ⟨some 5, false, []⟩).delivered
      = [⟨40, FILE_EVENT_CREATED, some ['a']⟩] ∧
    (callback coreServices (fun _ => JNI_OK) 40 1 (fun _ => some ['a', '\n', 'b'])
        (fun _ => 0x100) ⟨some 5, false, []⟩).delivered
      ≠ [⟨40, classify coreServices 0x100, some ['a', '\n', 'b']⟩] := by
  decide

/-- C8 as amended: for a batch of `numEvents` events handled with the flag clear and every
lookup successful, the sink receives exactly `numEvents` further calls, in index order, the
`i`-th with the classification of `eventFlags[i]` and the string of `eventPaths[i]` up to
its first newline, which is the whole string when it holds no newline; the flag stays
clear. -/
theorem callback_delivers_batch_in_order (K : FSEventStreamEventFlagMasks) (GetEnv : Nat → Int)
    (cb numEvents : Nat) (eventPaths : Nat → Option (List Char)) (eventFlags : Nat → Nat)
    (s : State) (hs : s.invalidStateDetected = false)
    (hok : ∀ i, i < numEvents → GetEnv i = JNI_OK) :
    (callback K GetEnv cb numEvents eventPaths eventFlags s).delivered
        = s.delivered ++ (List.range numEvents).map (fun i =>
            ⟨cb, classify K (eventFlags i),
              (eventPaths i).map (fun p => (cString p).takeWhile (fun c => c != '\n'))⟩) ∧
      (callback K GetEnv cb numEvents eventPaths eventFlags s).invalidStateDetected = false ∧
      (∀ p : List Char, '\n' ∉ cString p →
        (cString p).takeWhile (fun c => c != '\n') = cString p) := by
  obtain ⟨h1, h2, _⟩ := foldl_reportEvent K GetEnv cb eventPaths eventFlags
    (List.range numEvents) s
  refine ⟨?_, ?_, ?_⟩
  · simp only [callback, hs, Bool.false_eq_true, if_false]
    rw [h1, ← List.filterMap_eq_map]
    congr 1
    apply List.filterMap_congr
    intro i hi
    simp [hok i (List.mem_range.mp hi), cString_replaceNewlines]
  · simp only [callback, hs, Bool.false_eq_true, if_false]
    rw [h2, hs]
    simp only [Bool.false_or, List.any_eq_false]
    intro i hi
    simp [hok i (List.mem_range.mp hi)]
  · intro p hp
    rw [List.takeWhile_eq_self_iff]
    intro c hc
    have : c ≠ '\n' := fun h => hp (h ▸ hc)
    simpa using this

/-- Witness of C8: the raw sequence Created, Modified, Removed for the path `a`, with the
SDK masks. -/
theorem callback_delivers_batch_in_order_witness :
    (⟨some 5, false, []⟩ : State).invalidStateDetected = false ∧
      (∀ i, i < 3 → (fun _ : Nat => JNI_OK) i = JNI_OK) ∧
      (callback coreServices (fun _ => JNI_OK) 40 3 (fun _ => some ['a'])
          (fun i => if i = 0 then 0x100 else if i = 1 then 0x1000 else 0x200)
          ⟨some 5, false, []⟩).delivered
        = [⟨40, FILE_EVENT_CREATED, some ['a']⟩, ⟨40, FILE_EVENT_MODIFIED, some ['a']⟩,
            ⟨40, FILE_EVENT_REMOVED, some ['a']⟩] :=
  ⟨rfl, fun _ _ => rfl,
    (callback_delivers_batch_in_order coreServices (fun _ => JNI_OK) 40 3 (fun _ => some ['a'])
      (fun i => if i = 0 then 0x100 else if i = 1 then 0x1000 else 0x200)
      ⟨some 5, false, []⟩ rfl (fun _ _ => rfl)).1.trans (by decide)⟩

/-- C10: `stopWatching` marks the result as failed, with the invalid-state message, exactly
when the flag is set at the call; with the flag set its calls are that marking followed by
the teardown `freeDetails` of the session, with the flag clear they are that same teardown
alone; the teardown itself marks nothing. -/
theorem stopWatching_reports_invalid_state (s : State) (details : watch_details_t) :
    (failures (stopWatching s details).1
        = (if s.invalidStateDetected then
            ["Watcher is in invalid state, reported changes may be incorrect."]
          else [])) ∧
      (failures (stopWatching s details).1 ≠ [] ↔ s.invalidStateDetected = true) ∧
      (s.invalidStateDetected = true →
        (stopWatching s details).1
          = Action.mark_failed_with_errno
              "Watcher is in invalid state, reported changes may be incorrect."
            :: freeDetails details) ∧
      (s.invalidStateDetected = false → (stopWatching s details).1 = freeDetails details) ∧
      failures (freeDetails details) = [] := by
  have hfree := failures_freeDetails details
  cases h : s.invalidStateDetected
  · simp only [stopWatching, h, failures_append, hfree]
    simp [failures]
  · simp only [stopWatching, h, failures_append, hfree]
    simp [failures, mark_failed_with_errno]

/-- C11, the claim fails: `startWatching`, called while the flag is set, returns with the
flag clear, both when it succeeds and when it fails for want of paths. -/
theorem startWatching_clears_set_flag :
    (⟨some 5, true, []⟩ : State).invalidStateDetected = true ∧
      (startWatching sampleEnv [['/', 'a']] 0 7 ⟨some 5, true, []⟩).state.invalidStateDetected
        = false ∧
      (startWatching sampleEnv [] 0 7 ⟨some 5, true, []⟩).state.invalidStateDetected
        = false := by
  decide

/-- C11 as amended: `reportEvent`, `callback`, a run of batches and `EventProcessingThread`
never change the flag from set to clear; `startWatching` clears it on every call. -/
theorem invalid_flag_cleared_only_by_startWatching (K : FSEventStreamEventFlagMasks)
    (s : State) (h : s.invalidStateDetected = true) :
    (∀ (st type : Int) (path : Option (List Char)) (cb : Nat),
        (reportEvent st type path cb s).invalidStateDetected = true) ∧
      (∀ (GetEnv : Nat → Int) (cb n : Nat) (paths : Nat → Option (List Char))
          (flags : Nat → Nat),
        (callback K GetEnv cb n paths flags s).invalidStateDetected = true) ∧
      (∀ bs : List Batch, (runBatches K bs s).invalidStateDetected = true) ∧
      (∀ (T : ThreadEnv) (d : watch_details_t),
        (EventProcessingThread K T s d).state.invalidStateDetected = true) ∧
      (∀ (E : StartEnv) (paths : List (List Char)) (latencyInMillis : Int)
          (javaCallback : Nat),
        (startWatching E paths latencyInMillis javaCallback s).state.invalidStateDetected
          = false) := by
  refine ⟨?_, ?_, ?_, ?_, ?_⟩
  · intro st type path cb
    by_cases hst : st = JNI_OK <;> simp [reportEvent, hst, h]
  · intro GetEnv cb n paths flags
    simp [callback, h]
  · intro bs
    rw [runBatches_of_invalid K bs s h, h]
  · intro T d
    unfold EventProcessingThread
    split
    · exact h
    · dsimp only
      split
      · split
        · rfl
        · simp [runRegistered, runBatches_of_invalid K T.batches s h, h]
      · split
        · rfl
        · simp [runRegistered, runBatches_of_invalid K T.batches s h, h]
  · intro E paths latencyInMillis javaCallback
    exact startWatching_clears_flag E paths latencyInMillis javaCallback s

/-- Witness of C11: a state with the flag set, and a background thread started on it. -/
theorem invalid_flag_cleared_only_by_startWatching_witness :
    (⟨some 5, true, []⟩ : State).invalidStateDetected = true ∧
      (EventProcessingThread coreServices sampleThread ⟨some 5, true, []⟩
        startedSession).state.invalidStateDetected = true :=
  ⟨rfl, (invalid_flag_cleared_only_by_startWatching coreServices ⟨some 5, true, []⟩
    rfl).2.2.2.1 sampleThread startedSession⟩

/-- C12: when the environment lookup does not return `JNI_OK`, `reportEvent` sets the flag,
makes no `pathChanged` call and returns; when it returns `JNI_OK`, the flag is left as it
was and exactly one `pathChanged` call is made, with the kind and the callback object it
was given. -/
theorem reportEvent_by_lookup (st type : Int) (path : Option (List Char)) (cb : Nat)
    (s : State) :
    (st ≠ JNI_OK →
        (reportEvent st type path cb s).invalidStateDetected = true ∧
        (reportEvent st type path cb s).delivered = s.delivered ∧
        (reportEvent st type path cb s).jvm = s.jvm) ∧
      (st = JNI_OK →
        (reportEvent st type path cb s).invalidStateDetected = s.invalidStateDetected ∧
        (reportEvent st type path cb s).delivered
          = s.delivered ++ [⟨cb, type, path.map (fun p => cString (replaceNewlines p))⟩] ∧
        (reportEvent st type path cb s).jvm = s.jvm) := by
  constructor
  · intro hst
    simp [reportEvent, hst]
  · intro hst
    simp [reportEvent, hst, Option.map_map, Function.comp_def]

/-- C13: for a session whose run loop, thread and stream are present, `freeDetails` signals
the run loop to stop and then joins the thread, and everything else comes after the join;
the stream is stopped, invalidated and released exactly once each, all after the join and in
that order. -/
theorem freeDetails_stream_after_join (r : Option CFMutableArray) (c : Option Nat)
    (w t l : Nat) :
    ∃ roots last,
      freeDetails ⟨r, some w, some t, c, some l⟩
        = [Action.free Block.details, Action.CFRunLoopStop l, Action.pthread_join t]
          ++ (roots ++ [Action.FSEventStreamStop w, Action.FSEventStreamInvalidate w,
                Action.FSEventStreamRelease w] ++ last) ∧
      (freeDetails ⟨r, some w, some t, c, some l⟩).count (Action.FSEventStreamStop w) = 1 ∧
      (freeDetails ⟨r, some w, some t, c, some l⟩).count (Action.FSEventStreamInvalidate w)
        = 1 ∧
      (freeDetails ⟨r, some w, some t, c, some l⟩).count (Action.FSEventStreamRelease w) = 1 ∧
      (freeDetails ⟨r, some w, some t, c, some l⟩).count (Action.CFRunLoopStop l) = 1 ∧
      (freeDetails ⟨r, some w, some t, c, some l⟩).count (Action.pthread_join t) = 1 := by
  have hmap : ∀ (vs : List Nat) (a : Action), (∀ v, a ≠ Action.CFRelease v) →
      (vs.map Action.CFRelease).count a = 0 := by
    intro vs a ha
    rw [List.count_eq_zero]
    intro hm
    obtain ⟨v, _, hv⟩ := List.mem_map.mp hm
    exact ha v hv.symm
  cases r with
  | none =>
    cases c with
    | none => exact ⟨[], [], by simp [freeDetails], by simp [freeDetails],
        by simp [freeDetails], by simp [freeDetails], by simp [freeDetails],
        by simp [freeDetails]⟩
    | some cb => exact ⟨[], [Action.DeleteGlobalRef cb], by simp [freeDetails],
        by simp [freeDetails], by simp [freeDetails], by simp [freeDetails],
        by simp [freeDetails], by simp [freeDetails]⟩
  | some arr =>
    cases c with
    | none =>
      refine ⟨arr.values.map Action.CFRelease ++ [Action.CFRelease arr.ref], [],
        by simp [freeDetails], ?_, ?_, ?_, ?_, ?_⟩ <;>
        simp [freeDetails, List.count_append, List.count_cons, hmap]
    | some cb =>
      refine ⟨arr.values.map Action.CFRelease ++ [Action.CFRelease arr.ref],
        [Action.DeleteGlobalRef cb], by simp [freeDetails], ?_, ?_, ?_, ?_, ?_⟩ <;>
        simp [freeDetails, List.count_append, List.count_cons, hmap]

/-- C14: for a session with a root array, `freeDetails` releases the native string of every
entry of the array once, in index order, and then the array once: a reference is released
as many times as the array holds it, so with distinct references every string and the array
are released exactly once. -/
theorem freeDetails_releases_each_root_once (a : Nat) (vs : List Nat)
    (w t c l : Option Nat) :
    released (freeDetails ⟨some ⟨a, vs⟩, w, t, c, l⟩) = vs ++ [a] ∧
      (∀ v, (freeDetails ⟨some ⟨a, vs⟩, w, t, c, l⟩).count (Action.CFRelease v)
        = vs.count v + (if v = a then 1 else 0)) ∧
      (vs.Nodup → a ∉ vs →
        (∀ v ∈ vs, (freeDetails ⟨some ⟨a, vs⟩, w, t, c, l⟩).count (Action.CFRelease v) = 1) ∧
        (freeDetails ⟨some ⟨a, vs⟩, w, t, c, l⟩).count (Action.CFRelease a) = 1) := by
  have hrel : released (freeDetails ⟨some ⟨a, vs⟩, w, t, c, l⟩) = vs ++ [a] :=
    released_freeDetails _
  have hcount : ∀ v, (freeDetails ⟨some ⟨a, vs⟩, w, t, c, l⟩).count (Action.CFRelease v)
      = vs.count v + (if v = a then 1 else 0) := by
    intro v
    rw [count_CFRelease, hrel, List.count_append]
    by_cases hva : v = a
    · simp [hva]
    · have : ¬ a = v := fun h => hva h.symm
      simp [hva, List.count_cons, this]
  refine ⟨hrel, hcount, fun hnd hna => ⟨fun v hv => ?_, ?_⟩⟩
  · rw [hcount, List.count_eq_one_of_mem hnd hv]
    have : v ≠ a := fun h => hna (h ▸ hv)
    simp [this]
  · rw [hcount, List.count_eq_zero_of_not_mem hna]
    simp

/-- C15, the claim fails at four places.  Called with no paths, `startWatching` has created
the root array `10` and returns without releasing it or anything else.  When the stream
cannot be created, after the array `10`, the string `11` and the callback reference `40`
were acquired in this order, they are released as string, array, callback reference, which
is not the reverse of their acquisition.  When the record comes from `malloc` with stale
content and the callback reference cannot be created, the loop `97`, the thread `98` and the
stream `99`, none of which was acquired, are stopped, joined and released.  And when
`GetJavaVM` fails, the thread `30` is joined without its loop being stopped, while that
thread, started with `jvm` still `NULL`, does not reach the end of its body. -/
theorem startWatching_rollback_not_as_claimed :
    createdArray (startWatching sampleEnv [] 0 7 ⟨none, false, []⟩).trace = some 10 ∧
      released (startWatching sampleEnv [] 0 7 ⟨none, false, []⟩).trace = [] ∧
      (startWatching sampleEnv [] 0 7 ⟨none, false, []⟩).trace
        = [Action.CFArrayCreateMutable (some 10),
            Action.mark_failed_with_errno "No paths given to watch."] ∧
      (startWatching noStreamEnv [['/', 'a']] 0 7 ⟨none, false, []⟩).trace
        = [Action.CFArrayCreateMutable (some 10), Action.malloc,
            Action.java_to_char 0 (some ['/', 'a']),
            Action.CFStringCreateWithCString ['/', 'a'] (some 11),
            Action.free (Block.watchedPath 0), Action.CFArrayAppendValue 10 11,
            Action.NewGlobalRef 7 (some 40), Action.FSEventStreamCreate ⟨10, [11]⟩ 0 none,
            Action.mark_failed_with_errno
              "Could not create FSEventStreamCreate to track changes.",
            Action.free Block.details, Action.CFRelease 11, Action.CFRelease 10,
            Action.DeleteGlobalRef 40] ∧
      (startWatching staleRecordEnv [['/', 'a']] 0 7 ⟨none, false, []⟩).trace
        = [Action.CFArrayCreateMutable (some 10), Action.malloc,
            Action.java_to_char 0 (some ['/', 'a']),
            Action.CFStringCreateWithCString ['/', 'a'] (some 11),
            Action.free (Block.watchedPath 0), Action.CFArrayAppendValue 10 11,
            Action.NewGlobalRef 7 none,
            Action.mark_failed_with_errno "Could not create global reference for callback.",
            Action.free Block.details, Action.CFRunLoopStop 97, Action.pthread_join 98,
            Action.CFRelease 11, Action.CFRelease 10, Action.FSEventStreamStop 99,
            Action.FSEventStreamInvalidate 99, Action.FSEventStreamRelease 99] ∧
      (startWatching noJavaVMEnv [['/', 'a']] 0 7 ⟨none, false, []⟩).trace
        = [Action.CFArrayCreateMutable (some 10), Action.malloc,
            Action.java_to_char 0 (some ['/', 'a']),
            Action.CFStringCreateWithCString ['/', 'a'] (some 11),
            Action.free (Block.watchedPath 0), Action.CFArrayAppendValue 10 11,
            Action.NewGlobalRef 7 (some 40),
            Action.FSEventStreamCreate ⟨10, [11]⟩ 0 (some 20),
            Action.pthread_create 0, Action.GetJavaVM (-1),
            Action.mark_failed_with_errno "Could not store jvm instance.",
            Action.free Block.details, Action.pthread_join 30,
            Action.CFRelease 11, Action.CFRelease 10, Action.FSEventStreamStop 20,
            Action.FSEventStreamInvalidate 20, Action.FSEventStreamRelease 20,
            Action.DeleteGlobalRef 40] ∧
      (startWatching noJavaVMEnv [['/', 'a']] 0 7 ⟨none, false, []⟩).state.jvm = none ∧
      (EventProcessingThread coreServices sampleThread
          (startWatching noJavaVMEnv [['/', 'a']] 0 7 ⟨none, false, []⟩).state
          ⟨some ⟨10, [11]⟩, some 20, some 30, some 40, none⟩).trace
        = [ThreadAction.dereference_null_jvm] := by
  decide

/-- C15 as amended: when `startWatching` fails after the session record has been allocated
and no later than at the creation of the thread, and the fresh record reads as all `NULL`,
the calls before the failure tear nothing down, the failure is marked, and `freeDetails`
then runs on the record holding exactly what was acquired before the failure; the strings
created are released in the order of their creation and the array after them, no thread is
joined and no run loop signalled, and null is returned. -/
theorem startWatching_failure_frees_acquired (E : StartEnv) (paths : List (List Char))
    (latencyInMillis : Int) (javaCallback : Nat) (s : State) (ref : Nat)
    (hz : E.malloc = ⟨none, none, none, none, none⟩)
    (hA : E.CFArrayCreateMutable = some ref) (hp : paths.length ≠ 0)
    (hf : ¬ ThreadIsCreated E paths) :
    ∃ pre msg,
      (startWatching E paths latencyInMillis javaCallback s).trace
        = pre ++ Action.mark_failed_with_errno msg :: freeDetails (acquiredRecord E pre) ∧
      (∀ a ∈ pre, isTeardown a = false) ∧
      createdArray pre = some ref ∧
      threadCreated pre = false ∧
      released (startWatching E paths latencyInMillis javaCallback s).trace
        = createdStrings pre ++ [ref] ∧
      (∀ t, Action.pthread_join t ∉
        (startWatching E paths latencyInMillis javaCallback s).trace) ∧
      (∀ l, Action.CFRunLoopStop l ∉
        (startWatching E paths latencyInMillis javaCallback s).trace) ∧
      (startWatching E paths latencyInMillis javaCallback s).ret = none := by
  have key : ∀ (pre : List Action) (msg : String),
      (startWatching E paths latencyInMillis javaCallback s).trace
        = pre ++ Action.mark_failed_with_errno msg :: freeDetails (acquiredRecord E pre) →
      (∀ a ∈ pre, isTeardown a = false) → createdArray pre = some ref →
      threadCreated pre = false →
      (startWatching E paths latencyInMillis javaCallback s).ret = none →
      ∃ pre msg,
        (startWatching E paths latencyInMillis javaCallback s).trace
          = pre ++ Action.mark_failed_with_errno msg :: freeDetails (acquiredRecord E pre) ∧
        (∀ a ∈ pre, isTeardown a = false) ∧
        createdArray pre = some ref ∧
        threadCreated pre = false ∧
        released (startWatching E paths latencyInMillis javaCallback s).trace
          = createdStrings pre ++ [ref] ∧
        (∀ t, Action.pthread_join t ∉
          (startWatching E paths latencyInMillis javaCallback s).trace) ∧
        (∀ l, Action.CFRunLoopStop l ∉
          (startWatching E paths latencyInMillis javaCallback s).trace) ∧
        (startWatching E paths latencyInMillis javaCallback s).ret = none := by
    intro pre msg h1 h2 h3 h5 h4
    obtain ⟨hj, hl⟩ := no_thread_calls_in_freeDetails (acquiredRecord E pre)
      (by simp [acquiredRecord, h5]) (by simp [acquiredRecord, h5])
    refine ⟨pre, msg, h1, h2, h3, h5, by rw [h1]; exact released_rollback E pre msg ref h2 h3,
      fun t hm => ?_, fun l hm => ?_, h4⟩
    · rw [h1] at hm
      rcases List.mem_append.mp hm with hm | hm
      · simpa [isTeardown] using h2 _ hm
      · rcases List.mem_cons.mp hm with hm | hm
        · cases hm
        · exact hj t hm
    · rw [h1] at hm
      rcases List.mem_append.mp hm with hm | hm
      · simpa [isTeardown] using h2 _ hm
      · rcases List.mem_cons.mp hm with hm | hm
        · cases hm
        · exact hl l hm
  have hok := watchRoots_ok E paths 0 ⟨ref, []⟩
  simp only [Nat.zero_add] at hok
  have hsucc := watchRoots_success E paths 0 ⟨ref, []⟩
  have hfail := watchRoots_failure E paths 0 ⟨ref, []⟩
  rcases hw : watchRoots E 0 paths ⟨ref, []⟩ with ⟨tr, arr, ok⟩
  rw [hw] at hok hsucc hfail
  have hstart : ∀ r : StartResult, startWatching E paths latencyInMillis javaCallback s = r →
      (startWatching E paths latencyInMillis javaCallback s).trace = r.trace ∧
      (startWatching E paths latencyInMillis javaCallback s).ret = r.ret :=
    fun r h => by rw [h]; exact ⟨rfl, rfl⟩
  cases ok with
  | false =>
    obtain ⟨pre, msg, hv, hq⟩ := hfail rfl
    dsimp only at hv
    obtain ⟨ht, hr⟩ := hstart ⟨none, [Action.CFArrayCreateMutable (some ref)]
        ++ [Action.malloc] ++ tr, { s with invalidStateDetected := false }, none⟩
      (by simp [startWatching, hA, hp, hw])
    refine key ([Action.CFArrayCreateMutable (some ref), Action.malloc] ++ pre) msg
      ?_ ?_ ?_ ?_ hr
    · rw [ht, hv]
      have hR : acquiredRecord E
            ([Action.CFArrayCreateMutable (some ref), Action.malloc] ++ pre)
          = { E.malloc with rootsToWatch := some ⟨ref, [] ++ createdStrings pre⟩ } := by
        simp [acquiredRecord, createdArray, createdStrings, createdCallback, createdStream,
          threadCreated, hq.2.2.1, hq.2.2.2.1, hq.2.2.2.2, hz]
      rw [hR]
      simp
    · have := (noTeardown_iff pre).mp hq.1
      rw [noTeardown_iff, List.all_append, this]
      rfl
    · simp [createdArray]
    · simp [threadCreated, hq.2.2.2.2]
  | true =>
    obtain ⟨harr, hq⟩ := hsucc rfl
    dsimp only at harr hq
    have hall := (noTeardown_iff tr).mp hq.1
    obtain ⟨_, hq2, hq3, hq4, hq5⟩ := hq
    cases hG : E.NewGlobalRef with
    | none =>
      obtain ⟨ht, hr⟩ := hstart ⟨none, [Action.CFArrayCreateMutable (some ref)]
          ++ [Action.malloc] ++ tr ++ [Action.NewGlobalRef javaCallback E.NewGlobalRef]
          ++ mark_failed_with_errno "Could not create global reference for callback."
          ++ freeDetails { E.malloc with rootsToWatch := some arr, watcherCallback := E.NewGlobalRef },
          { s with invalidStateDetected := false }, none⟩
        (by simp [startWatching, hA, hp, hw, hG])
      refine key ([Action.CFArrayCreateMutable (some ref), Action.malloc] ++ tr
        ++ [Action.NewGlobalRef javaCallback none])
                    "Could not create global reference for callback." ?_ ?_ ?_ ?_ hr
      · rw [ht]
        have hR : acquiredRecord E ([Action.CFArrayCreateMutable (some ref), Action.malloc]
              ++ tr ++ [Action.NewGlobalRef javaCallback none])
            = { E.malloc with rootsToWatch := some arr, watcherCallback := E.NewGlobalRef } := by
          simp [acquiredRecord, createdArray, createdStrings, createdCallback, createdStream,
            threadCreated, createdStrings_append, createdCallback_append,
            createdStream_append, threadCreated_append, hq3, hq4, hq5, hz, hG, harr]
        rw [hR]
        simp [mark_failed_with_errno, hG]
      · rw [noTeardown_iff, List.all_append, List.all_append, hall]
        rfl
      · simp [createdArray]
      · simp [threadCreated, threadCreated_append, hq5]
    | some cb =>
      cases hS : E.FSEventStreamCreate with
      | none =>
        obtain ⟨ht, hr⟩ := hstart ⟨none, [Action.CFArrayCreateMutable (some ref)]
            ++ [Action.malloc] ++ tr ++ [Action.NewGlobalRef javaCallback E.NewGlobalRef]
            ++ [Action.FSEventStreamCreate arr latencyInMillis E.FSEventStreamCreate]
            ++ mark_failed_with_errno "Could not create FSEventStreamCreate to track changes."
            ++ freeDetails
                { E.malloc with
                  rootsToWatch := some arr
                  watcherCallback := E.NewGlobalRef
                  watcherStream := E.FSEventStreamCreate },
            { s with invalidStateDetected := false }, none⟩
          (by simp [startWatching, hA, hp, hw, hG, hS])
        refine key ([Action.CFArrayCreateMutable (some ref), Action.malloc] ++ tr
          ++ [Action.NewGlobalRef javaCallback (some cb),
              Action.FSEventStreamCreate arr latencyInMillis none])
                    "Could not create FSEventStreamCreate to track changes." ?_ ?_ ?_ ?_ hr
        · rw [ht]
          have hR : acquiredRecord E ([Action.CFArrayCreateMutable (some ref), Action.malloc]
                ++ tr ++ [Action.NewGlobalRef javaCallback (some cb),
                  Action.FSEventStreamCreate arr latencyInMillis none])
              =
                  { E.malloc with
                    rootsToWatch := some arr
                    watcherCallback := E.NewGlobalRef
                    watcherStream := E.FSEventStreamCreate } := by
            simp [acquiredRecord, createdArray, createdStrings, createdCallback,
              createdStream, threadCreated, createdStrings_append, createdCallback_append,
              createdStream_append, threadCreated_append, hq3, hq4, hq5, hz, hG, hS, harr]
          rw [hR]
          simp [mark_failed_with_errno, hG, hS]
        · rw [noTeardown_iff, List.all_append, List.all_append, hall]
          rfl
        · simp [createdArray]
        · simp [threadCreated, threadCreated_append, hq5]
      | some w =>
        by_cases hT : E.pthread_create = 0
        · exfalso
          apply hf
          exact ⟨by simp [hA], hp, hok.mp rfl, by simp [hG], by simp [hS], hT⟩
        · obtain ⟨ht, hr⟩ := hstart ⟨none, [Action.CFArrayCreateMutable (some ref)]
              ++ [Action.malloc] ++ tr ++ [Action.NewGlobalRef javaCallback E.NewGlobalRef]
              ++ [Action.FSEventStreamCreate arr latencyInMillis E.FSEventStreamCreate]
              ++ [Action.pthread_create E.pthread_create]
              ++ mark_failed_with_errno "Could not create file watcher thread."
              ++ freeDetails
                  { E.malloc with
                    rootsToWatch := some arr
                    watcherCallback := E.NewGlobalRef
                    watcherStream := E.FSEventStreamCreate },
              { s with invalidStateDetected := false }, none⟩
            (by simp [startWatching, hA, hp, hw, hG, hS, hT])
          refine key ([Action.CFArrayCreateMutable (some ref), Action.malloc] ++ tr
            ++ [Action.NewGlobalRef javaCallback (some cb),
                Action.FSEventStreamCreate arr latencyInMillis (some w),
                Action.pthread_create E.pthread_create])
                    "Could not create file watcher thread." ?_ ?_ ?_ ?_ hr
          · rw [ht]
            have hR : acquiredRecord E
                  ([Action.CFArrayCreateMutable (some ref), Action.malloc]
                  ++ tr ++ [Action.NewGlobalRef javaCallback (some cb),
                    Action.FSEventStreamCreate arr latencyInMillis (some w),
                    Action.pthread_create E.pthread_create])
                =
                    { E.malloc with
                      rootsToWatch := some arr
                      watcherCallback := E.NewGlobalRef
                      watcherStream := E.FSEventStreamCreate } := by
              simp [acquiredRecord, createdArray, createdStrings, createdCallback,
                createdStream, threadCreated, createdStrings_append, createdCallback_append,
                createdStream_append, threadCreated_append, hq3, hq4, hq5, hz, hG, hS, hT,
                harr]
            rw [hR]
            simp [mark_failed_with_errno, hG, hS]
          · rw [noTeardown_iff, List.all_append, List.all_append, hall]
            rfl
          · simp [createdArray]
          · simp [threadCreated, threadCreated_append, hq5, hT]

/-- Witness of C15: one path, and the stream cannot be created. -/
theorem startWatching_failure_frees_acquired_witness :
    noStreamEnv.malloc = ⟨none, none, none, none, none⟩ ∧
      noStreamEnv.CFArrayCreateMutable = some 10 ∧
      [['/', 'a']].length ≠ 0 ∧
      ¬ ThreadIsCreated noStreamEnv [['/', 'a']] ∧
      ∃ pre msg,
        (startWatching noStreamEnv [['/', 'a']] 0 7 ⟨none, false, []⟩).trace
          = pre ++ Action.mark_failed_with_errno msg ::
              freeDetails (acquiredRecord noStreamEnv pre) ∧
        (∀ a ∈ pre, isTeardown a = false) ∧
        createdArray pre = some 10 ∧
        threadCreated pre = false ∧
        released (startWatching noStreamEnv [['/', 'a']] 0 7 ⟨none, false, []⟩).trace
          = createdStrings pre ++ [10] ∧
        (∀ t, Action.pthread_join t ∉
          (startWatching noStreamEnv [['/', 'a']] 0 7 ⟨none, false, []⟩).trace) ∧
        (∀ l, Action.CFRunLoopStop l ∉
          (startWatching noStreamEnv [['/', 'a']] 0 7 ⟨none, false, []⟩).trace) ∧
        (startWatching noStreamEnv [['/', 'a']] 0 7 ⟨none, false, []⟩).ret = none :=
  ⟨rfl, rfl, by decide, fun h => h.2.2.2.2.1 rfl,
    startWatching_failure_frees_acquired noStreamEnv [['/', 'a']] 0 7 ⟨none, false, []⟩ 10
      rfl rfl (by decide) (fun h => h.2.2.2.2.1 rfl)⟩

/-- C16: after a successful `startWatching` the root array of the session record holds one
entry per input path, entry `i` being the `CFString` created from the C string of path `i`;
the stream is created over that array; and the background thread leaves the array of the
record as it is. -/
theorem startWatching_roots_are_the_paths (E : StartEnv) (paths : List (List Char))
    (latencyInMillis : Int) (javaCallback : Nat) (s : State)
    (h : StartUpSucceeds E paths) :
    ∃ ref vs d,
      E.CFArrayCreateMutable = some ref ∧
      (startWatching E paths latencyInMillis javaCallback s).details = some d ∧
      d.rootsToWatch = some ⟨ref, vs⟩ ∧
      vs.length = paths.length ∧
      (∀ i path, paths[i]? = some path →
        ∃ w, E.java_to_char i path = some w ∧ E.CFStringCreateWithCString i w = vs[i]?) ∧
      Action.FSEventStreamCreate ⟨ref, vs⟩ latencyInMillis E.FSEventStreamCreate
        ∈ (startWatching E paths latencyInMillis javaCallback s).trace ∧
      (∀ (K : FSEventStreamEventFlagMasks) (T : ThreadEnv) (s1 : State),
        (EventProcessingThread K T s1 d).details.rootsToWatch = some ⟨ref, vs⟩) := by
  obtain ⟨hA, hp, hconv, hG, hS, hT, hJ⟩ := h
  obtain ⟨ref, hA⟩ := Option.ne_none_iff_exists'.mp hA
  obtain ⟨cb, hG⟩ := Option.ne_none_iff_exists'.mp hG
  obtain ⟨w, hS⟩ := Option.ne_none_iff_exists'.mp hS
  have hok := watchRoots_ok E paths 0 ⟨ref, []⟩
  simp only [Nat.zero_add] at hok
  have hsucc := watchRoots_success E paths 0 ⟨ref, []⟩ (hok.mpr hconv)
  have hcre := watchRoots_created E paths 0 ⟨ref, []⟩ (hok.mpr hconv)
  simp only [Nat.zero_add] at hcre
  rcases hw : watchRoots E 0 paths ⟨ref, []⟩ with ⟨tr, arr, ok⟩
  rw [hw] at hok hsucc hcre
  have hokt : ok = true := hok.mpr hconv
  subst hokt
  obtain ⟨harr, _⟩ := hsucc
  dsimp only at harr hcre
  simp only [List.nil_append] at harr
  have hJ' : ¬ E.GetJavaVM < 0 := by omega
  have hd : (startWatching E paths latencyInMillis javaCallback s).details
      = some ⟨some arr, some w, some E.watcherThread, some cb, E.malloc.threadLoop⟩ := by
    simp [startWatching, hA, hp, hw, hG, hS, hT, hJ']
  have ht : Action.FSEventStreamCreate arr latencyInMillis E.FSEventStreamCreate
      ∈ (startWatching E paths latencyInMillis javaCallback s).trace := by
    simp [startWatching, hA, hp, hw, hG, hS, hT, hJ']
  refine ⟨ref, createdStrings tr, _, hA, hd, by rw [harr], hcre.1, hcre.2, ?_, ?_⟩
  · rw [harr] at ht
    exact ht
  · intro K T s1
    rw [harr]
    unfold EventProcessingThread
    split
    · rfl
    · dsimp only
      split
      · split <;> rfl
      · split <;> rfl

/-- Witness of C16: one path, every call succeeding. -/
theorem startWatching_roots_are_the_paths_witness :
    StartUpSucceeds sampleEnv [['/', 'a']] ∧
      ∃ ref vs d,
        sampleEnv.CFArrayCreateMutable = some ref ∧
        (startWatching sampleEnv [['/', 'a']] 0 7 ⟨none, false, []⟩).details = some d ∧
        d.rootsToWatch = some ⟨ref, vs⟩ ∧
        vs.length = [['/', 'a']].length ∧
        (∀ i path, [['/', 'a']][i]? = some path →
          ∃ w, sampleEnv.java_to_char i path = some w ∧
            sampleEnv.CFStringCreateWithCString i w = vs[i]?) ∧
        Action.FSEventStreamCreate ⟨ref, vs⟩ 0 sampleEnv.FSEventStreamCreate
          ∈ (startWatching sampleEnv [['/', 'a']] 0 7 ⟨none, false, []⟩).trace ∧
        (∀ (K : FSEventStreamEventFlagMasks) (T : ThreadEnv) (s1 : State),
          (EventProcessingThread K T s1 d).details.rootsToWatch = some ⟨ref, vs⟩) :=
  ⟨⟨by decide, by decide, fun _ path _ => ⟨path, rfl, by simp [sampleEnv]⟩, by decide,
      by decide, by decide, by decide⟩,
    startWatching_roots_are_the_paths sampleEnv [['/', 'a']] 0 7 ⟨none, false, []⟩
      ⟨by decide, by decide, fun _ path _ => ⟨path, rfl, by simp [sampleEnv]⟩, by decide,
        by decide, by decide, by decide⟩⟩

/-- C17, evaluated: `startWatching` succeeds and returns the handle `60` for a record whose
`threadLoop` the starting thread never wrote.  A `stopWatching` that reads the record before
the background thread has taken its third step, the store of its run loop `50`, does not
signal that loop: with a cleared record it signals no loop at all and goes on to join the
thread, with a stale record it signals the stale value `97`.  From the third step on the
loop `50` is signalled. -/
theorem stopWatching_before_loop_is_stored :
    (startWatching clearedEnv [['/', 'a']] 0 7 ⟨none, false, []⟩).ret = some 60 ∧
      (startWatching clearedEnv [['/', 'a']] 0 7 ⟨none, false, []⟩).details
        = some ⟨some ⟨10, [11]⟩, some 20, some 30, some 40, none⟩ ∧
      (EventProcessingThread coreServices sampleThread ⟨some 5, false, []⟩
          ⟨some ⟨10, [11]⟩, some 20, some 30, some 40, none⟩).trace
        = [ThreadAction.FSEventStreamScheduleWithRunLoop (some 20) 50,
            ThreadAction.FSEventStreamStart (some 20), ThreadAction.store_threadLoop 50,
            ThreadAction.CFRunLoopRun, ThreadAction.DetachCurrentThread] ∧
      (∀ k, k < 3 →
        stopAfterSteps coreServices sampleThread ⟨some 5, false, []⟩
            ⟨some ⟨10, [11]⟩, some 20, some 30, some 40, none⟩ k
          = [Action.free Block.details, Action.pthread_join 30, Action.CFRelease 11,
              Action.CFRelease 10, Action.FSEventStreamStop 20,
              Action.FSEventStreamInvalidate 20, Action.FSEventStreamRelease 20,
              Action.DeleteGlobalRef 40]) ∧
      (startWatching sampleEnv [['/', 'a']] 0 7 ⟨none, false, []⟩).details
        = some ⟨some ⟨10, [11]⟩, some 20, some 30, some 40, some 97⟩ ∧
      (∀ k, k < 3 →
        Action.CFRunLoopStop 50 ∉
            stopAfterSteps coreServices sampleThread ⟨some 5, false, []⟩
              ⟨some ⟨10, [11]⟩, some 20, some 30, some 40, some 97⟩ k ∧
          Action.CFRunLoopStop 97 ∈
            stopAfterSteps coreServices sampleThread ⟨some 5, false, []⟩
              ⟨some ⟨10, [11]⟩, some 20, some 30, some 40, some 97⟩ k) ∧
      Action.CFRunLoopStop 50 ∈
        stopAfterSteps coreServices sampleThread ⟨some 5, false, []⟩
          ⟨some ⟨10, [11]⟩, some 20, some 30, some 40, none⟩ 3 := by
  decide

/-- C18, evaluated: on a first start the thread can run before `startWatching` has stored
the Java VM, so that `jvm` is `NULL` at the lookup of line 100.  The thread then stops at the
lookup: where the lookup would have reported an unsupported version the flag is not set,
and where it would have succeeded nothing is scheduled, started or stored.  Once `jvm` is
stored the thread does what the claim says: a failed registration sets the flag and
returns with nothing scheduled, started, stored or delivered, and otherwise the stream is
scheduled, started, and the loop stored before it is run. -/
theorem EventProcessingThread_before_jvm_is_stored :
    (EventProcessingThread coreServices ⟨JNI_EVERSION, JNI_OK, 50, []⟩ ⟨none, false, []⟩
        ⟨some ⟨10, [11]⟩, some 20, some 30, some 40, none⟩).state.invalidStateDetected
          = false ∧
      (EventProcessingThread coreServices ⟨JNI_EVERSION, JNI_OK, 50, []⟩ ⟨none, false, []⟩
        ⟨some ⟨10, [11]⟩, some 20, some 30, some 40, none⟩).trace
          = [ThreadAction.dereference_null_jvm] ∧
      (EventProcessingThread coreServices sampleThread ⟨none, false, []⟩
        ⟨some ⟨10, [11]⟩, some 20, some 30, some 40, none⟩).trace
          = [ThreadAction.dereference_null_jvm] ∧
      (EventProcessingThread coreServices sampleThread ⟨none, false, []⟩
        ⟨some ⟨10, [11]⟩, some 20, some 30, some 40, none⟩).details
          = ⟨some ⟨10, [11]⟩, some 20, some 30, some 40, none⟩ ∧
      ∀ (K : FSEventStreamEventFlagMasks) (T : ThreadEnv) (s : State) (d : watch_details_t),
        s.jvm ≠ none →
        ((T.GetEnv = JNI_EDETACHED ∧ T.AttachCurrentThread ≠ JNI_OK)
            ∨ T.GetEnv = JNI_EVERSION →
          (EventProcessingThread K T s d).state = { s with invalidStateDetected := true } ∧
          (EventProcessingThread K T s d).details = d ∧
          (∀ a ∈ (EventProcessingThread K T s d).trace,
            ∃ st, a = ThreadAction.AttachCurrentThread st))
        ∧ (¬ ((T.GetEnv = JNI_EDETACHED ∧ T.AttachCurrentThread ≠ JNI_OK)
              ∨ T.GetEnv = JNI_EVERSION) →
          (∃ pre,
            (pre = [] ∨ pre = [ThreadAction.AttachCurrentThread T.AttachCurrentThread]) ∧
            (EventProcessingThread K T s d).trace
              = pre ++
                [ThreadAction.FSEventStreamScheduleWithRunLoop d.watcherStream
                    T.CFRunLoopGetCurrent,
                  ThreadAction.FSEventStreamStart d.watcherStream,
                  ThreadAction.store_threadLoop T.CFRunLoopGetCurrent,
                  ThreadAction.CFRunLoopRun, ThreadAction.DetachCurrentThread]) ∧
          (EventProcessingThread K T s d).details
            = { d with threadLoop := some T.CFRunLoopGetCurrent } ∧
          (EventProcessingThread K T s d).state = runBatches K T.batches s) := by
  refine ⟨by decide, by decide, by decide, by decide, ?_⟩
  intro K T s d hj
  obtain ⟨vm, hvm⟩ := Option.ne_none_iff_exists'.mp hj
  have hne : JNI_EVERSION ≠ JNI_EDETACHED := by decide
  constructor
  · rintro (⟨h1, h2⟩ | h1)
    · simp [EventProcessingThread, hvm, h1, h2]
    · simp [EventProcessingThread, hvm, h1, hne]
  · intro h
    simp only [not_or, not_and, not_not] at h
    obtain ⟨h1, h2⟩ := h
    by_cases hd : T.GetEnv = JNI_EDETACHED
    · have ha := h1 hd
      refine ⟨⟨[ThreadAction.AttachCurrentThread T.AttachCurrentThread], Or.inr rfl, ?_⟩,
        ?_, ?_⟩ <;> simp [EventProcessingThread, hvm, hd, ha, runRegistered]
    · refine ⟨⟨[], Or.inl rfl, ?_⟩, ?_, ?_⟩ <;>
        simp [EventProcessingThread, hvm, hd, h2, runRegistered]

/-- C19: with the three system codes distinct as in `winerror.h`, `map_error_code` sends
`ERROR_FILE_NOT_FOUND` and `ERROR_PATH_NOT_FOUND` to `FAILURE_NO_SUCH_FILE` (1),
`ERROR_DIRECTORY` to `FAILURE_NOT_A_DIRECTORY` (2) and every other code to
`FAILURE_GENERIC` (0); its result is always one of the `FAILURE_*` constants. -/
theorem map_error_code_total (W : WinError) (error_code : Int)
    (hd : W.ERROR_DIRECTORY ≠ W.ERROR_FILE_NOT_FOUND ∧
      W.ERROR_DIRECTORY ≠ W.ERROR_PATH_NOT_FOUND) :
    map_error_code W W.ERROR_FILE_NOT_FOUND = FAILURE_NO_SUCH_FILE ∧
      map_error_code W W.ERROR_PATH_NOT_FOUND = FAILURE_NO_SUCH_FILE ∧
      map_error_code W W.ERROR_DIRECTORY = FAILURE_NOT_A_DIRECTORY ∧
      (error_code ≠ W.ERROR_FILE_NOT_FOUND → error_code ≠ W.ERROR_PATH_NOT_FOUND →
        error_code ≠ W.ERROR_DIRECTORY → map_error_code W error_code = FAILURE_GENERIC) ∧
      map_error_code W error_code ∈
        [FAILURE_GENERIC, FAILURE_NO_SUCH_FILE, FAILURE_NOT_A_DIRECTORY, FAILURE_PERMISSIONS] ∧
      FAILURE_GENERIC = 0 ∧ FAILURE_NO_SUCH_FILE = 1 ∧ FAILURE_NOT_A_DIRECTORY = 2 := by
  obtain ⟨h1, h2⟩ := hd
  refine ⟨by simp [map_error_code], by simp [map_error_code], by simp [map_error_code, h1, h2],
    fun a b c => by simp [map_error_code, a, b, c], ?_, rfl, rfl, rfl⟩
  unfold map_error_code
  split_ifs <;> simp

/-- Witness of C19: the codes of `winerror.h`, and the code 5 (access denied). -/
theorem map_error_code_total_witness :
    (winerror.ERROR_DIRECTORY ≠ winerror.ERROR_FILE_NOT_FOUND ∧
        winerror.ERROR_DIRECTORY ≠ winerror.ERROR_PATH_NOT_FOUND) ∧
      map_error_code winerror 2 = 1 ∧ map_error_code winerror 3 = 1 ∧
      map_error_code winerror 267 = 2 ∧ map_error_code winerror 5 = 0 :=
  ⟨by decide,
    (map_error_code_total winerror 5 (by decide)).1,
    (map_error_code_total winerror 5 (by decide)).2.1,
    (map_error_code_total winerror 5 (by decide)).2.2.1,
    (map_error_code_total winerror 5 (by decide)).2.2.2.1 (by decide) (by decide)
      (by decide)⟩

set_option maxRecDepth 100000 in
/-- C20, the claim fails: the path of 244 units made of `C`, colon, backslash, a NUL and
240 times `a` starts with a drive and is longer than 240, and the result is the long-path
marker followed by the three units before the NUL, seven units and not 248. -/
theorem java_to_wchar_path_cuts_at_nul :
    pathWithNul.length = 244 ∧ StartsWithDrive pathWithNul ∧
      java_to_wchar_path pathWithNul
        = ['\\', '\\', '?', '\\', 'C', ':', '\\'].map Char.toNat ∧
      (java_to_wchar_path pathWithNul).length ≠ 244 + 4 := by
  refine ⟨by decide, ⟨'C'.toNat, 0 :: List.replicate 240 'a'.toNat, rfl, Or.inr (by decide)⟩,
    by decide, by decide⟩

/-- C20 as amended: a string of at most 240 units is returned unchanged; a longer one that
starts with a drive letter, colon and backslash becomes the long-path marker followed by the
string up to its first NUL; a longer one that does not, and starts with two backslashes,
becomes the UNC marker followed by the string without its first two units, up to its first
NUL; any other string is returned unchanged.  A string without NUL is taken whole, so that
the two results have `len + 4` and `len + 6` units. -/
theorem java_to_wchar_path_cases (string : List Nat) :
    (string.length ≤ 240 → java_to_wchar_path string = string) ∧
      (240 < string.length → StartsWithDrive string →
        java_to_wchar_path string
          = ['\\', '\\', '?', '\\'].map Char.toNat ++ wString string) ∧
      (240 < string.length → ¬ StartsWithDrive string → StartsWithTwoBackslashes string →
        java_to_wchar_path string
          = ['\\', '\\', '?', '\\', 'U', 'N', 'C', '\\'].map Char.toNat
            ++ wString (string.drop 2)) ∧
      (240 < string.length → ¬ StartsWithDrive string → ¬ StartsWithTwoBackslashes string →
        java_to_wchar_path string = string) ∧
      (0 ∉ string →
        wString string = string ∧ wString (string.drop 2) = string.drop 2 ∧
        (240 < string.length → StartsWithDrive string →
          (java_to_wchar_path string).length = string.length + 4) ∧
        (240 < string.length → ¬ StartsWithDrive string → StartsWithTwoBackslashes string →
          (java_to_wchar_path string).length = string.length + 6)) := by
  have hlong : 240 < string.length → ¬ ((string.length : Int) ≤ 240) := fun h => by omega
  have hpfx : wString (['\\', '\\', '?', '\\'].map Char.toNat)
      = ['\\', '\\', '?', '\\'].map Char.toNat := by decide
  have hunc : wString (['\\', '\\', '?', '\\', 'U', 'N', 'C', '\\'].map Char.toNat)
      = ['\\', '\\', '?', '\\', 'U', 'N', 'C', '\\'].map Char.toNat := by decide
  have hdrive : 240 < string.length → StartsWithDrive string →
      java_to_wchar_path string
        = ['\\', '\\', '?', '\\'].map Char.toNat ++ wString string := by
    intro h hd
    have hl := (is_path_absolute_local_iff string (by omega)).mpr hd
    simp only [java_to_wchar_path, hlong h, if_false, hl, if_true, add_prefix , hpfx,
      Int.toNat_ofNat, List.take_length]
  have htwo : 240 < string.length → ¬ StartsWithDrive string →
      StartsWithTwoBackslashes string →
      java_to_wchar_path string
        = ['\\', '\\', '?', '\\', 'U', 'N', 'C', '\\'].map Char.toNat
          ++ wString (string.drop 2) := by
    intro h hd hu
    have hl : is_path_absolute_local string string.length = false := by
      rw [← Bool.not_eq_true]
      exact fun hx => hd ((is_path_absolute_local_iff string (by omega)).mp hx)
    have hu2 := (is_path_absolute_unc_iff string (by omega)).mpr hu
    have htake : (string.drop 2).take ((string.length : Int) - 2).toNat = string.drop 2 := by
      apply List.take_of_length_le
      rw [List.length_drop]
      omega
    simp only [java_to_wchar_path, hlong h, if_false, hl, Bool.false_eq_true, hu2, if_true,
      add_prefix , hunc, htake]
  refine ⟨?_, hdrive, htwo, ?_, ?_⟩
  · intro h
    have : (string.length : Int) ≤ 240 := by omega
    simp [java_to_wchar_path, this]
  · intro h hd hu
    have hl : is_path_absolute_local string string.length = false := by
      rw [← Bool.not_eq_true]
      exact fun hx => hd ((is_path_absolute_local_iff string (by omega)).mp hx)
    have hu2 : is_path_absolute_unc string string.length = false := by
      rw [← Bool.not_eq_true]
      exact fun hx => hu ((is_path_absolute_unc_iff string (by omega)).mp hx)
    simp only [java_to_wchar_path, hlong h, if_false, hl, hu2, Bool.false_eq_true]
  · intro h0
    have h1 := wString_of_no_nul string h0
    have h2 := wString_of_no_nul (string.drop 2) (fun hm => h0 (List.mem_of_mem_drop hm))
    refine ⟨h1, h2, fun h hd => ?_, fun h hd hu => ?_⟩
    · rw [hdrive h hd, h1]
      simp
    · rw [htwo h hd hu, h2]
      simp
      omega

/-- C21: when the path cannot be opened and the error is `ERROR_FILE_NOT_FOUND`,
`ERROR_PATH_NOT_FOUND` or `ERROR_NOT_READY`, `get_file_stat` returns `ERROR_SUCCESS` with type
`FILE_TYPE_MISSING`, size 0 and time 0; for every other failure, of opening or of querying,
it returns the error code; on success it returns `ERROR_SUCCESS` with type symlink, directory
or file, and size 0 for a directory and for a symlink.  This holds in both builds.  Which
type is reported is fixed by what the queries return: in the `WINDOWS_MIN` build a path whose
attributes have the directory bit is a directory of size 0 and any other path a file with
the size of the attribute data, and no symlink is reported; in the other build a path whose
tag data passes `is_file_symlink` is a symlink of size 0, any other path with the directory
bit is a directory of size 0, and every other path is a file with the size of the file
information; the time is that of the last write in all of them. -/
theorem get_file_stat_outcomes (W : WinFile) (WINDOWS_MIN : Bool) (E : StatEnv)
    (followLink : Bool) (pFileStat : file_stat_t) :
    (opens WINDOWS_MIN E followLink = false →
        (E.GetLastError = W.ERROR_FILE_NOT_FOUND ∨ E.GetLastError = W.ERROR_PATH_NOT_FOUND
          ∨ E.GetLastError = W.ERROR_NOT_READY) →
        (get_file_stat W WINDOWS_MIN E followLink pFileStat).ret = W.ERROR_SUCCESS ∧
        (get_file_stat W WINDOWS_MIN E followLink pFileStat).stat
          = ⟨FILE_TYPE_MISSING, 0, 0⟩) ∧
      (opens WINDOWS_MIN E followLink = false →
        ¬ (E.GetLastError = W.ERROR_FILE_NOT_FOUND ∨ E.GetLastError = W.ERROR_PATH_NOT_FOUND
          ∨ E.GetLastError = W.ERROR_NOT_READY) →
        (get_file_stat W WINDOWS_MIN E followLink pFileStat).ret = E.GetLastError) ∧
      (opens WINDOWS_MIN E followLink = true → queries WINDOWS_MIN E = false →
        (get_file_stat W WINDOWS_MIN E followLink pFileStat).ret = E.GetLastError) ∧
      (opens WINDOWS_MIN E followLink = true → queries WINDOWS_MIN E = true →
        (get_file_stat W WINDOWS_MIN E followLink pFileStat).ret = W.ERROR_SUCCESS ∧
        ((get_file_stat W WINDOWS_MIN E followLink pFileStat).stat.fileType = FILE_TYPE_SYMLINK
          ∨ (get_file_stat W WINDOWS_MIN E followLink pFileStat).stat.fileType
              = FILE_TYPE_DIRECTORY
          ∨ (get_file_stat W WINDOWS_MIN E followLink pFileStat).stat.fileType
              = FILE_TYPE_FILE) ∧
        ((get_file_stat W WINDOWS_MIN E followLink pFileStat).stat.fileType
              = FILE_TYPE_DIRECTORY
            ∨ (get_file_stat W WINDOWS_MIN E followLink pFileStat).stat.fileType
              = FILE_TYPE_SYMLINK →
          (get_file_stat W WINDOWS_MIN E followLink pFileStat).stat.size = 0)) ∧
      (∀ attr, E.GetFileAttributesExW = some attr →
        (get_file_stat W true E followLink pFileStat).ret = W.ERROR_SUCCESS ∧
        (get_file_stat W true E followLink pFileStat).stat.lastModified
          = lastModifiedNanos attr.ftLastWriteTime ∧
        (attr.dwFileAttributes &&& W.FILE_ATTRIBUTE_DIRECTORY ≠ 0 →
          (get_file_stat W true E followLink pFileStat).stat.fileType = FILE_TYPE_DIRECTORY ∧
          (get_file_stat W true E followLink pFileStat).stat.size = 0) ∧
        (attr.dwFileAttributes &&& W.FILE_ATTRIBUTE_DIRECTORY = 0 →
          (get_file_stat W true E followLink pFileStat).stat.fileType = FILE_TYPE_FILE ∧
          (get_file_stat W true E followLink pFileStat).stat.size
            = jlong ((attr.nFileSizeHigh <<< 32) ||| attr.nFileSizeLow))) ∧
      (∀ fileHandle fileInfo fileTagInfo, E.CreateFileW (!followLink) = some fileHandle →
        E.GetFileInformationByHandle = some fileInfo →
        E.GetFileInformationByHandleEx = some fileTagInfo →
        (get_file_stat W false E followLink pFileStat).ret = W.ERROR_SUCCESS ∧
        (get_file_stat W false E followLink pFileStat).closed = [fileHandle] ∧
        (get_file_stat W false E followLink pFileStat).stat.lastModified
          = lastModifiedNanos fileInfo.ftLastWriteTime ∧
        (is_file_symlink W fileTagInfo.FileAttributes fileTagInfo.ReparseTag = true →
          (get_file_stat W false E followLink pFileStat).stat.fileType = FILE_TYPE_SYMLINK ∧
          (get_file_stat W false E followLink pFileStat).stat.size = 0) ∧
        (is_file_symlink W fileTagInfo.FileAttributes fileTagInfo.ReparseTag = false →
          fileTagInfo.FileAttributes &&& W.FILE_ATTRIBUTE_DIRECTORY ≠ 0 →
          (get_file_stat W false E followLink pFileStat).stat.fileType = FILE_TYPE_DIRECTORY ∧
          (get_file_stat W false E followLink pFileStat).stat.size = 0) ∧
        (is_file_symlink W fileTagInfo.FileAttributes fileTagInfo.ReparseTag = false →
          fileTagInfo.FileAttributes &&& W.FILE_ATTRIBUTE_DIRECTORY = 0 →
          (get_file_stat W false E followLink pFileStat).stat.fileType = FILE_TYPE_FILE ∧
          (get_file_stat W false E followLink pFileStat).stat.size
            = jlong ((fileInfo.nFileSizeHigh <<< 32) ||| fileInfo.nFileSizeLow))) ∧
      get_file_stat winfile false sampleStat false ⟨0, 0, 0⟩
        = ⟨0, ⟨FILE_TYPE_SYMLINK, 1, 0⟩, [3]⟩ ∧
      get_file_stat winfile false directoryStat false ⟨0, 0, 0⟩
        = ⟨0, ⟨FILE_TYPE_DIRECTORY, 4294967296, 0⟩, [3]⟩ ∧
      get_file_stat winfile false plainFileStat false ⟨0, 0, 0⟩
        = ⟨0, ⟨FILE_TYPE_FILE, 4294967296, 7⟩, [3]⟩ ∧
      get_file_stat winfile true directoryStat false ⟨0, 0, 0⟩
        = ⟨0, ⟨FILE_TYPE_DIRECTORY, 4294967296, 0⟩, []⟩ ∧
      get_file_stat winfile true plainFileStat false ⟨0, 0, 0⟩
        = ⟨0, ⟨FILE_TYPE_FILE, 4294967296, 7⟩, []⟩ := by
  have hexact :
      (∀ attr, E.GetFileAttributesExW = some attr →
        (get_file_stat W true E followLink pFileStat).ret = W.ERROR_SUCCESS ∧
        (get_file_stat W true E followLink pFileStat).stat.lastModified
          = lastModifiedNanos attr.ftLastWriteTime ∧
        (attr.dwFileAttributes &&& W.FILE_ATTRIBUTE_DIRECTORY ≠ 0 →
          (get_file_stat W true E followLink pFileStat).stat.fileType = FILE_TYPE_DIRECTORY ∧
          (get_file_stat W true E followLink pFileStat).stat.size = 0) ∧
        (attr.dwFileAttributes &&& W.FILE_ATTRIBUTE_DIRECTORY = 0 →
          (get_file_stat W true E followLink pFileStat).stat.fileType = FILE_TYPE_FILE ∧
          (get_file_stat W true E followLink pFileStat).stat.size
            = jlong ((attr.nFileSizeHigh <<< 32) ||| attr.nFileSizeLow))) ∧
      (∀ fileHandle fileInfo fileTagInfo, E.CreateFileW (!followLink) = some fileHandle →
        E.GetFileInformationByHandle = some fileInfo →
        E.GetFileInformationByHandleEx = some fileTagInfo →
        (get_file_stat W false E followLink pFileStat).ret = W.ERROR_SUCCESS ∧
        (get_file_stat W false E followLink pFileStat).closed = [fileHandle] ∧
        (get_file_stat W false E followLink pFileStat).stat.lastModified
          = lastModifiedNanos fileInfo.ftLastWriteTime ∧
        (is_file_symlink W fileTagInfo.FileAttributes fileTagInfo.ReparseTag = true →
          (get_file_stat W false E followLink pFileStat).stat.fileType = FILE_TYPE_SYMLINK ∧
          (get_file_stat W false E followLink pFileStat).stat.size = 0) ∧
        (is_file_symlink W fileTagInfo.FileAttributes fileTagInfo.ReparseTag = false →
          fileTagInfo.FileAttributes &&& W.FILE_ATTRIBUTE_DIRECTORY ≠ 0 →
          (get_file_stat W false E followLink pFileStat).stat.fileType = FILE_TYPE_DIRECTORY ∧
          (get_file_stat W false E followLink pFileStat).stat.size = 0) ∧
        (is_file_symlink W fileTagInfo.FileAttributes fileTagInfo.ReparseTag = false →
          fileTagInfo.FileAttributes &&& W.FILE_ATTRIBUTE_DIRECTORY = 0 →
          (get_file_stat W false E followLink pFileStat).stat.fileType = FILE_TYPE_FILE ∧
          (get_file_stat W false E followLink pFileStat).stat.size
            = jlong ((fileInfo.nFileSizeHigh <<< 32) ||| fileInfo.nFileSizeLow))) ∧
      get_file_stat winfile false sampleStat false ⟨0, 0, 0⟩
        = ⟨0, ⟨FILE_TYPE_SYMLINK, 1, 0⟩, [3]⟩ ∧
      get_file_stat winfile false directoryStat false ⟨0, 0, 0⟩
        = ⟨0, ⟨FILE_TYPE_DIRECTORY, 4294967296, 0⟩, [3]⟩ ∧
      get_file_stat winfile false plainFileStat false ⟨0, 0, 0⟩
        = ⟨0, ⟨FILE_TYPE_FILE, 4294967296, 7⟩, [3]⟩ ∧
      get_file_stat winfile true directoryStat false ⟨0, 0, 0⟩
        = ⟨0, ⟨FILE_TYPE_DIRECTORY, 4294967296, 0⟩, []⟩ ∧
      get_file_stat winfile true plainFileStat false ⟨0, 0, 0⟩
        = ⟨0, ⟨FILE_TYPE_FILE, 4294967296, 7⟩, []⟩ := by
    refine ⟨fun attr h => ?_, fun fileHandle fileInfo fileTagInfo h h1 h2 => ?_,
      by decide, by decide, by decide, by decide, by decide⟩
    · by_cases hdir : attr.dwFileAttributes &&& W.FILE_ATTRIBUTE_DIRECTORY = 0
      · simp [get_file_stat, h, hdir]
      · simp [get_file_stat, h, hdir]
    · by_cases hsym : is_file_symlink W fileTagInfo.FileAttributes fileTagInfo.ReparseTag = true
      · simp [get_file_stat, h, h1, h2, hsym]
      · by_cases hdir : fileTagInfo.FileAttributes &&& W.FILE_ATTRIBUTE_DIRECTORY = 0
        · simp [get_file_stat, h, h1, h2, hsym, hdir]
        · simp [get_file_stat, h, h1, h2, hsym, hdir]
  have hfd : FILE_TYPE_FILE ≠ FILE_TYPE_DIRECTORY := by decide
  have hfs : FILE_TYPE_FILE ≠ FILE_TYPE_SYMLINK := by decide
  cases WINDOWS_MIN with
  | true =>
    cases h : E.GetFileAttributesExW with
    | none =>
      refine ⟨fun _ he => ?_, fun _ he => ?_, fun ho => ?_, fun ho => ?_,
        by rw [h] at hexact; exact hexact⟩
      · simp [get_file_stat, h, he]
      · simp [get_file_stat, h, he]
      · simp [opens, h] at ho
      · simp [opens, h] at ho
    | some attr =>
      refine ⟨fun ho => ?_, fun ho => ?_, fun _ hq => ?_, fun _ _ => ?_,
        by rw [h] at hexact; exact hexact⟩
      · simp [opens, h] at ho
      · simp [opens, h] at ho
      · simp [queries] at hq
      · by_cases hdir : attr.dwFileAttributes &&& W.FILE_ATTRIBUTE_DIRECTORY = 0
        · simp [get_file_stat, h, hdir, hfd, hfs]
        · simp [get_file_stat, h, hdir]
  | false =>
    cases h : E.CreateFileW (!followLink) with
    | none =>
      refine ⟨fun _ he => ?_, fun _ he => ?_, fun ho => ?_, fun ho => ?_,
        by rw [h] at hexact; exact hexact⟩
      · simp [get_file_stat, h, he]
      · simp [get_file_stat, h, he]
      · simp [opens, h] at ho
      · simp [opens, h] at ho
    | some fileHandle =>
      refine ⟨fun ho => ?_, fun ho => ?_, fun _ hq => ?_, fun _ hq => ?_,
        by rw [h] at hexact; exact hexact⟩
      · simp [opens, h] at ho
      · simp [opens, h] at ho
      · cases h1 : E.GetFileInformationByHandle with
        | none => simp [get_file_stat, h, h1]
        | some fileInfo =>
          cases h2 : E.GetFileInformationByHandleEx with
          | none => simp [get_file_stat, h, h1, h2]
          | some tag => simp [queries, h1, h2] at hq
      · cases h1 : E.GetFileInformationByHandle with
        | none => simp [queries, h1] at hq
        | some fileInfo =>
          cases h2 : E.GetFileInformationByHandleEx with
          | none => simp [queries, h2] at hq
          | some tag =>
            by_cases hsym : is_file_symlink W tag.FileAttributes tag.ReparseTag = true
            · simp [get_file_stat, h, h1, h2, hsym]
            · by_cases hdir : tag.FileAttributes &&& W.FILE_ATTRIBUTE_DIRECTORY = 0
              · simp [get_file_stat, h, h1, h2, hsym, hdir, hfd, hfs]
              · simp [get_file_stat, h, h1, h2, hsym, hdir]

/-- C22: given that `STATUS_NO_MORE_FILES` is not a success status, `fastReaddirNext` returns
`JNI_TRUE` exactly when the status of the query is a success, and then marks nothing; it
returns `JNI_FALSE` and marks nothing exactly when the status is `STATUS_NO_MORE_FILES`; for
every other failure status it returns `JNI_FALSE` and marks the result with the status,
`STATUS_NOT_A_DIRECTORY` standing in for `STATUS_INVALID_PARAMETER` when the attributes of
the path lack the directory bit. -/
theorem fastReaddirNext_by_status (W : WinFile) (N : NtStatus) (status : Int)
    (GetFileAttributesW : Nat) (h : N.NT_SUCCESS N.STATUS_NO_MORE_FILES = false) :
    ((fastReaddirNext W N false status GetFileAttributesW).1 = true ↔
        N.NT_SUCCESS status = true) ∧
      (fastReaddirNext W N false status GetFileAttributesW = (true, none) ↔
        N.NT_SUCCESS status = true) ∧
      (fastReaddirNext W N false status GetFileAttributesW = (false, none) ↔
        status = N.STATUS_NO_MORE_FILES) ∧
      (N.NT_SUCCESS status = false → status ≠ N.STATUS_NO_MORE_FILES →
        fastReaddirNext W N false status GetFileAttributesW
          = (false, some (Marking.mark_failed_with_ntstatus "Error reading directory entries"
              (if status = N.STATUS_INVALID_PARAMETER
                  ∧ GetFileAttributesW &&& W.FILE_ATTRIBUTE_DIRECTORY = 0 then
                N.STATUS_NOT_A_DIRECTORY
              else status)))) := by
  cases hs : N.NT_SUCCESS status with
  | true =>
    have hne : status ≠ N.STATUS_NO_MORE_FILES := fun he => by
      rw [he, h] at hs
      exact Bool.false_ne_true hs
    simp [fastReaddirNext, hs, hne]
  | false =>
    by_cases hm : status = N.STATUS_NO_MORE_FILES
    · simp [fastReaddirNext, hs, hm, h]
    · by_cases hi : status = N.STATUS_INVALID_PARAMETER
      · subst hi
        by_cases hd : GetFileAttributesW &&& W.FILE_ATTRIBUTE_DIRECTORY = 0
        · simp [fastReaddirNext, hs, hm, hd]
        · simp [fastReaddirNext, hs, hm, hd]
      · simp [fastReaddirNext, hs, hm, hi]

/-- Witness of C22: the DDK values, the status `STATUS_INVALID_PARAMETER`, and a path that is
a plain file. -/
theorem fastReaddirNext_by_status_witness :
    ntstatus.NT_SUCCESS ntstatus.STATUS_NO_MORE_FILES = false ∧
      fastReaddirNext winfile ntstatus false ntstatus.STATUS_INVALID_PARAMETER 0x20
        = (false, some (Marking.mark_failed_with_ntstatus "Error reading directory entries"
            ntstatus.STATUS_NOT_A_DIRECTORY)) :=
  ⟨by decide,
    ((fastReaddirNext_by_status winfile ntstatus ntstatus.STATUS_INVALID_PARAMETER 0x20
      (by decide)).2.2.2 (by decide) (by decide)).trans (by decide)⟩

/-- C23, evaluated: `stopWatching`, called with the flag set, marks the result as failed and
returns with the flag still set. -/
theorem stopWatching_leaves_flag_set :
    (⟨some 5, true, []⟩ : State).invalidStateDetected = true ∧
      failures (stopWatching ⟨some 5, true, []⟩ startedSession).1
        = ["Watcher is in invalid state, reported changes may be incorrect."] ∧
      (stopWatching ⟨some 5, true, []⟩ startedSession).2.invalidStateDetected = true := by
  decide

/-- C24: `is_path_absolute_local` is true exactly when the length is at least 3, the first
unit is an ASCII letter, the second a colon and the third a backslash; it is false for every
length below 3; given the true length of the path, it is true exactly for the paths that
start with a drive letter, a colon and a backslash. -/
theorem is_path_absolute_local_spec (path : List Nat) (path_len : Int) :
    (is_path_absolute_local path path_len = true ↔
        3 ≤ path_len ∧
        (('a'.toNat ≤ wcharAt path 0 ∧ wcharAt path 0 ≤ 'z'.toNat)
          ∨ ('A'.toNat ≤ wcharAt path 0 ∧ wcharAt path 0 ≤ 'Z'.toNat)) ∧
        wcharAt path 1 = ':'.toNat ∧ wcharAt path 2 = '\\'.toNat) ∧
      (path_len < 3 → is_path_absolute_local path path_len = false) ∧
      (is_path_absolute_local path path.length = true ↔
        3 ≤ path.length ∧ StartsWithDrive path) := by
  refine ⟨?_, ?_, ?_⟩
  · by_cases h : path_len < 3
    · have : ¬ 3 ≤ path_len := by omega
      simp [is_path_absolute_local, h, this]
    · have : 3 ≤ path_len := by omega
      simp [is_path_absolute_local, h, this, and_assoc]
  · intro h
    simp [is_path_absolute_local, h]
  · by_cases h : 3 ≤ path.length
    · rw [is_path_absolute_local_iff path h]
      simp [h]
    · have h3 : (path.length : Int) < 3 := by omega
      simp [is_path_absolute_local, h3, h]

/-- C25, the claim fails: the three units backslash, backslash, `a` pass
`is_path_absolute_unc`, and they are not of the form `\\server\share`, for want of a
share. -/
theorem is_path_absolute_unc_without_share :
    is_path_absolute_unc ['\\'.toNat, '\\'.toNat, 'a'.toNat] 3 = true ∧
      ¬ IsUncForm ['\\'.toNat, '\\'.toNat, 'a'.toNat] := by
  refine ⟨by decide, ?_⟩
  rintro ⟨server, share, heq, hserver, _, _⟩
  simp only [List.cons.injEq, true_and] at heq
  cases server with
  | nil => exact hserver rfl
  | cons x xs =>
    simp only [List.cons_append, List.cons.injEq] at heq
    have := congrArg List.length heq.2
    simp only [List.length_nil, List.length_append, List.length_cons] at this
    omega

/-- C25 as amended: `is_path_absolute_unc` is true exactly when the length is at least 3 and
the first two units are backslashes; given the true length of the path, it is true exactly
for the paths of at least three units that start with two backslashes, among them every path
of the form `\\server\share`. -/
theorem is_path_absolute_unc_spec (path : List Nat) (path_len : Int) :
    (is_path_absolute_unc path path_len = true ↔
        3 ≤ path_len ∧ wcharAt path 0 = '\\'.toNat ∧ wcharAt path 1 = '\\'.toNat) ∧
      (is_path_absolute_unc path path.length = true ↔
        3 ≤ path.length ∧ StartsWithTwoBackslashes path) ∧
      (IsUncForm path → is_path_absolute_unc path path.length = true) := by
  have h2 : is_path_absolute_unc path path.length = true ↔
      3 ≤ path.length ∧ StartsWithTwoBackslashes path := by
    by_cases h : 3 ≤ path.length
    · rw [is_path_absolute_unc_iff path h]
      simp [h]
    · have h3 : (path.length : Int) < 3 := by omega
      simp [is_path_absolute_unc, h3, h]
  refine ⟨?_, h2, ?_⟩
  · by_cases h : path_len < 3
    · have : ¬ 3 ≤ path_len := by omega
      simp [is_path_absolute_unc, h, this]
    · have : 3 ≤ path_len := by omega
      simp [is_path_absolute_unc, h, this]
  · rintro ⟨server, share, heq, hserver, _, _⟩
    rw [h2]
    refine ⟨?_, server ++ '\\'.toNat :: share, heq⟩
    rw [heq]
    cases server with
    | nil => exact absurd rfl hserver
    | cons x xs => simp

/-- C26, evaluated with the SDK constants: a key-down TAB with SHIFT pressed is reported as
the character TAB, and a key-down TAB without any modifier as the control key 9; the test
of line 928 asks for SHIFT not to be pressed where its comment says shift-tab. -/
theorem readInput_tab_with_and_without_shift :
    readInput wincon (some 1) (some 1) true [some (tabKeyDown wincon.SHIFT_PRESSED)]
        = ([], Reported.character '\t'.toNat) ∧
      readInput wincon (some 1) (some 1) true [some (tabKeyDown 0)]
        = ([], Reported.control_key 9) := by
  decide

/-- C27: for a path that is not `NULL`, `reportEvent` hands the sink the string of the path
cut at its first newline.  The loop overwrites every newline of the string with NUL; a path
without newline is delivered whole, and a path with a newline is delivered shorter than it
is. -/
theorem reportEvent_cuts_path_at_newline (type : Int) (path : List Char) (cb : Nat)
    (s : State) :
    (reportEvent JNI_OK type (some path) cb s).delivered
        = s.delivered ++ [⟨cb, type, some ((cString path).takeWhile (fun c => c != '\n'))⟩] ∧
      ('\x00' ∉ path →
        replaceNewlines path = path.map (fun c => if c = '\n' then '\x00' else c)) ∧
      '\n' ∉ cString (replaceNewlines path) ∧
      ('\n' ∉ cString path →
        (cString path).takeWhile (fun c => c != '\n') = cString path) ∧
      ('\n' ∈ cString path →
        (cString path).takeWhile (fun c => c != '\n') ≠ cString path ∧
        ((cString path).takeWhile (fun c => c != '\n')).length < (cString path).length) := by
  have hnot : '\n' ∉ (cString path).takeWhile (fun c => c != '\n') := by
    intro hm
    have := List.mem_takeWhile_imp hm
    simp at this
  have hne : '\n' ∈ cString path →
      (cString path).takeWhile (fun c => c != '\n') ≠ cString path := by
    intro hm heq
    rw [heq] at hnot
    exact hnot hm
  refine ⟨?_, replaceNewlines_of_no_nul path, ?_, ?_, fun hm => ⟨hne hm, ?_⟩⟩
  · simp [reportEvent, JNI_OK, cString_replaceNewlines]
  · rw [cString_replaceNewlines]
    exact hnot
  · intro hp
    rw [List.takeWhile_eq_self_iff]
    intro c hc
    have : c ≠ '\n' := fun h => hp (h ▸ hc)
    simpa using this
  · have hle := (List.takeWhile_sublist (fun c => c != '\n') (l := cString path)).length_le
    rcases Nat.lt_or_ge
      ((cString path).takeWhile (fun c => c != '\n')).length (cString path).length with h | h
    · exact h
    · exact absurd ((List.takeWhile_sublist _).eq_of_length_le h) (hne hm)

end NativePlatform
